import Mathlib

/-!
Verification development for the Dex Pulumi provider's reconciliation core.

The Go sources under `cmd/pulumi-resource-dex` and `pkg/provider/resources`
are embedded shallowly:

* machine strings are Lean `String`s; byte slices holding JSON are modelled by
  the inductive `Bytes`, which records the parse outcome of the byte string
  (well-formed JSON value, malformed text, or empty);
* the gRPC admin client is an explicit record of response functions, and each
  reconciler operation additionally returns the list of remote calls (and
  sleeps) it performed, so "performs no RPC" is a statement about that list;
* `crypto/rand` randomness is passed in as the byte list that `rand.Read`
  would have produced;
* wall-clock timeouts/deadlines are outside the model.
-/

namespace Dex

/-! ## Base64 (URL-safe, padded) — embeds `base64.URLEncoding.EncodeToString` -/

/-- The URL-safe base64 alphabet used by Go's `base64.URLEncoding`. -/
def b64Alphabet : List Char :=
  "ABCDEFGHIJKLMNOPQRSTUVWXYZabcdefghijklmnopqrstuvwxyz0123456789-_".toList

/-- Character for a 6-bit group. -/
def b64Char (n : Nat) : Char := b64Alphabet.getD n '='

/-- Inverse lookup in the alphabet (used only for the injectivity proof). -/
def b64DecChar (c : Char) : Nat := b64Alphabet.indexOf c

/-- Encode a byte list, 3 bytes to 4 chars, padding with `=`. -/
def b64EncodeChunks : List Nat → List Char
  | a :: b :: c :: rest =>
      b64Char (a / 4) :: b64Char ((a % 4) * 16 + b / 16) ::
      b64Char ((b % 16) * 4 + c / 64) :: b64Char (c % 64) :: b64EncodeChunks rest
  | [a, b] => [b64Char (a / 4), b64Char ((a % 4) * 16 + b / 16), b64Char ((b % 16) * 4), '=']
  | [a] => [b64Char (a / 4), b64Char ((a % 4) * 16), '=', '=']
  | [] => []

/-- Decoder used to show the encoding is injective (not part of the source). -/
def b64DecodeChunks : List Char → List Nat
  | c1 :: c2 :: c3 :: c4 :: rest =>
      if c3 = '=' then
        [b64DecChar c1 * 4 + b64DecChar c2 / 16]
      else if c4 = '=' then
        [b64DecChar c1 * 4 + b64DecChar c2 / 16,
         (b64DecChar c2 % 16) * 16 + b64DecChar c3 / 4]
      else
        (b64DecChar c1 * 4 + b64DecChar c2 / 16) ::
        ((b64DecChar c2 % 16) * 16 + b64DecChar c3 / 4) ::
        ((b64DecChar c3 % 4) * 64 + b64DecChar c4) :: b64DecodeChunks rest
  | _ => []

/-- `base64.URLEncoding.EncodeToString` on a byte list. -/
def base64UrlEncode (bs : List Nat) : String := String.mk (b64EncodeChunks bs)

theorem b64DecChar_b64Char : ∀ n, n < 64 → b64DecChar (b64Char n) = n := by decide

theorem b64Char_ne_pad : ∀ n, n < 64 → b64Char n ≠ '=' := by decide

theorem b64_roundtrip : ∀ bs : List Nat, (∀ b ∈ bs, b < 256) →
    b64DecodeChunks (b64EncodeChunks bs) = bs
  | [], _ => rfl
  | [a], h => by
      have ha : a < 256 := h a (by simp)
      have h1 : a / 4 < 64 := by omega
      have h2 : (a % 4) * 16 < 64 := by omega
      simp only [b64EncodeChunks, b64DecodeChunks, reduceIte]
      rw [b64DecChar_b64Char _ h1, b64DecChar_b64Char _ h2]
      simp only [List.cons.injEq, and_true]
      omega
  | [a, b], h => by
      have ha : a < 256 := h a (by simp)
      have hb : b < 256 := h b (by simp)
      have h1 : a / 4 < 64 := by omega
      have h2 : (a % 4) * 16 + b / 16 < 64 := by omega
      have h3 : (b % 16) * 4 < 64 := by omega
      simp only [b64EncodeChunks, b64DecodeChunks]
      rw [if_neg (b64Char_ne_pad _ h3)]
      simp only [reduceIte]
      rw [b64DecChar_b64Char _ h1, b64DecChar_b64Char _ h2, b64DecChar_b64Char _ h3]
      simp only [List.cons.injEq, and_true]
      omega
  | a :: b :: c :: rest, h => by
      have ha : a < 256 := h a (by simp)
      have hb : b < 256 := h b (by simp)
      have hc : c < 256 := h c (by simp)
      have h1 : a / 4 < 64 := by omega
      have h2 : (a % 4) * 16 + b / 16 < 64 := by omega
      have h3 : (b % 16) * 4 + c / 64 < 64 := by omega
      have h4 : c % 64 < 64 := by omega
      have ih := b64_roundtrip rest (fun x hx => h x (by simp [hx]))
      simp only [b64EncodeChunks, b64DecodeChunks]
      rw [if_neg (b64Char_ne_pad _ h3), if_neg (b64Char_ne_pad _ h4)]
      rw [b64DecChar_b64Char _ h1, b64DecChar_b64Char _ h2, b64DecChar_b64Char _ h3,
        b64DecChar_b64Char _ h4, ih]
      simp only [List.cons.injEq, and_true]
      omega

theorem base64UrlEncode_inj {bs1 bs2 : List Nat}
    (h1 : ∀ b ∈ bs1, b < 256) (h2 : ∀ b ∈ bs2, b < 256)
    (he : base64UrlEncode bs1 = base64UrlEncode bs2) : bs1 = bs2 := by
  have hchars : b64EncodeChunks bs1 = b64EncodeChunks bs2 := by
    have := congrArg String.data he
    simpa [base64UrlEncode] using this
  calc bs1 = b64DecodeChunks (b64EncodeChunks bs1) := (b64_roundtrip bs1 h1).symm
    _ = b64DecodeChunks (b64EncodeChunks bs2) := by rw [hchars]
    _ = bs2 := b64_roundtrip bs2 h2

/-! ## JSON values and association-list objects

Go's `map[string]any` holding decoded JSON is modelled as an association list
with distinct keys; `encoding/json` object operations become `getKey` /
`setKey` / `delKey`.  A Go byte slice holding JSON is modelled by `Bytes`,
which records the parse outcome of the bytes (Go only ever branches on
`len(config) > 0`, `json.Unmarshal` success, and the raw text). -/

inductive Json where
  | null
  | jbool (b : Bool)
  | jnum (n : Int)
  | jstr (s : String)
  | jarr (xs : List Json)
  | jobj (fields : List (String × Json))

abbrev JObj := List (String × Json)

/-- `m[k]` on a Go map. -/
def getKey (m : JObj) (k : String) : Option Json :=
  (m.find? (fun p => p.1 == k)).map Prod.snd

/-- `m[k] = v` on a Go map (replace in place, else append). -/
def setKey (m : JObj) (k : String) (v : Json) : JObj :=
  if m.any (fun p => p.1 == k) then
    m.map (fun p => if p.1 == k then (k, v) else p)
  else m ++ [(k, v)]

/-- `delete(m, k)` on a Go map. -/
def delKey (m : JObj) (k : String) : JObj :=
  m.filter (fun p => p.1 != k)

/-- A Go `[]byte` holding (possibly malformed) JSON, modelled by its parse
outcome.  `wellFormed v raw` stands for nonempty bytes `raw` that
`json.Unmarshal` parses as `v`; `malformed raw` for nonempty bytes that fail
to parse; `empty` for the empty slice. -/
inductive Bytes where
  | wellFormed (v : Json) (raw : String)
  | malformed (raw : String)
  | empty

/-- `string(bytes)`. -/
def Bytes.text : Bytes → String
  | .wellFormed _ raw => raw
  | .malformed raw => raw
  | .empty => ""

/-! ## Client resource — embeds `cmd/pulumi-resource-dex/client.go`

`*T` (optional) Go fields become `Option T`; nil slices are identified with
`[]`.  `infer.GetConfig[DexConfig](ctx).client` is the `Option ClientRemote`
argument (`none` = "Dex client not configured"). -/

/-- `ClientArgs` (client.go). -/
structure ClientArgs where
  clientId : String
  name : String
  secret : Option String
  redirectUris : List String
  trustedPeers : List String
  public : Option Bool
  logoUrl : Option String
  deriving DecidableEq, Repr

/-- `ClientState` (client.go): embeds `ClientArgs`, adds `createdAt`. -/
structure ClientState extends ClientArgs where
  createdAt : Option String
  deriving DecidableEq, Repr

/-- `api.Client` (Dex gRPC message, fields the provider uses). -/
structure ApiClient where
  id : String
  secret : String
  redirectUris : List String
  trustedPeers : List String
  name : String
  logoUrl : String
  public : Bool
  deriving DecidableEq, Repr

/-- `api.UpdateClientReq` as the provider builds it.  The message carries no
secret field: the update call cannot transmit a secret. -/
structure UpdateClientReq where
  id : String
  name : String
  redirectUris : List String
  trustedPeers : List String
  logoUrl : String
  deriving DecidableEq, Repr

/-- A gRPC failure, as far as the provider distinguishes
(`status.Code(err) == codes.NotFound` vs anything else). -/
inductive GrpcErr where
  | notFound
  | other (msg : String)
  deriving DecidableEq, Repr

/-- Error text used when wrapping. -/
def GrpcErr.text : GrpcErr → String
  | .notFound => "not found"
  | .other m => m

/-- `api.CreateClientResp`: Dex signals a duplicate id with a flag. -/
structure CreateClientResp where
  alreadyExists : Bool
  deriving DecidableEq, Repr

/-- The Remote Identity Client for the Client kind: one response function per
RPC (deterministic mock of the Dex gRPC stub). -/
structure ClientRemote where
  createClient : ApiClient → Except GrpcErr CreateClientResp
  getClient : String → Except GrpcErr ApiClient
  listClients : Except GrpcErr (List ApiClient)
  updateClient : UpdateClientReq → Except GrpcErr Unit
  deleteClient : String → Except GrpcErr Unit

/-- One observable outbound effect of a reconciler operation. -/
inductive DexCall where
  | createClient (c : ApiClient)
  | getClient (id : String)
  | listClients
  | updateClient (r : UpdateClientReq)
  | deleteClient (id : String)
  | sleepMs (n : Nat)
  | createConnector (id ty name : String) (config : Bytes)
  | listConnectors
  | updateConnector (id newType newName : String) (config : Bytes)
  | deleteConnector (id : String)

/-- `ptrOr` (main.go): dereference with default. -/
def ptrOr {α : Type} (p : Option α) (d : α) : α := p.getD d

/-- `wrapError` (preview.go). -/
def wrapError (operation resourceType resourceID msg : String) : String :=
  "dex " ++ operation ++ " " ++ resourceType ++ " \"" ++ resourceID ++ "\": " ++ msg

/-- `infer.CreateResponse`. -/
structure CreateResponse (S : Type) where
  id : String
  output : S

/-- Secret generation branch of `Client.Create` (client.go lines 63-74);
`randBytes` is what `crypto/rand.Read` produced (or its error). -/
def genClientSecret (id : String) (randBytes : Except String (List Nat)) :
    Except String String :=
  match randBytes with
  | .error e => .error (wrapError "create" "client" id ("failed to generate secret: " ++ e))
  | .ok bs => .ok (base64UrlEncode bs)

/-- `Client.Create` (client.go).  Returns the response and the list of remote
calls performed, in order. -/
def clientCreate (remote : Option ClientRemote) (randBytes : Except String (List Nat))
    (now : String) (dryRun : Bool) (args : ClientArgs) :
    Except String (CreateResponse ClientState) × List DexCall :=
  if dryRun then
    (.ok ⟨args.clientId, { toClientArgs := args, createdAt := none }⟩, [])
  else
    match remote with
    | none => (.error "Dex client not configured", [])
    | some rc =>
      match (match args.secret with
             | some s => if s = "" then genClientSecret args.clientId randBytes else .ok s
             | none => genClientSecret args.clientId randBytes) with
      | .error e => (.error e, [])
      | .ok secret =>
        let client : ApiClient :=
          { id := args.clientId, secret := secret,
            redirectUris := args.redirectUris, trustedPeers := args.trustedPeers,
            name := args.name, logoUrl := ptrOr args.logoUrl "",
            public := ptrOr args.public false }
        match rc.createClient client with
        | .error e =>
            (.error (wrapError "create" "client" args.clientId e.text),
             [DexCall.createClient client])
        | .ok resp =>
          if resp.alreadyExists then
            match rc.getClient args.clientId with
            | .error e =>
                (.error (wrapError "read existing" "client" args.clientId e.text),
                 [DexCall.createClient client, DexCall.getClient args.clientId])
            | .ok g =>
                (.ok ⟨args.clientId,
                  { clientId := g.id, name := g.name, secret := some g.secret,
                    redirectUris := g.redirectUris, trustedPeers := g.trustedPeers,
                    public := some g.public, logoUrl := some g.logoUrl,
                    createdAt := none }⟩,
                 [DexCall.createClient client, DexCall.getClient args.clientId])
          else
            (.ok ⟨args.clientId,
              { clientId := args.clientId, name := args.name, secret := some secret,
                redirectUris := args.redirectUris, trustedPeers := args.trustedPeers,
                public := args.public, logoUrl := args.logoUrl,
                createdAt := some now }⟩,
             [DexCall.createClient client])

/-- `Client.Update` (client.go). -/
def clientUpdate (remote : Option ClientRemote) (dryRun : Bool)
    (args : ClientArgs) (oldState : ClientState) :
    Except String ClientState × List DexCall :=
  if dryRun then
    (.ok { toClientArgs := args, createdAt := none }, [])
  else
    match remote with
    | none => (.error "Dex client not configured", [])
    | some rc =>
      if args.clientId ≠ oldState.clientId then
        (.error ("clientId cannot be changed (was \"" ++ oldState.clientId ++
                 "\", got \"" ++ args.clientId ++ "\")"), [])
      else
        let updateReq : UpdateClientReq :=
          { id := args.clientId, name := args.name,
            redirectUris := args.redirectUris, trustedPeers := args.trustedPeers,
            logoUrl := ptrOr args.logoUrl "" }
        match rc.updateClient updateReq with
        | .error e =>
            (.error ("failed to update Dex client: " ++ e.text),
             [DexCall.updateClient updateReq])
        | .ok _ =>
            (.ok { clientId := args.clientId, name := args.name,
                   secret := oldState.secret,
                   redirectUris := args.redirectUris,
                   trustedPeers := args.trustedPeers,
                   public := args.public, logoUrl := args.logoUrl,
                   createdAt := oldState.createdAt },
             [DexCall.updateClient updateReq])

/-- `Client.Delete` (client.go): delete, settle 200 ms, re-list, and fail if
verification fails or the id is still listed. -/
def clientDelete (remote : Option ClientRemote) (reqID : String) (state : ClientState) :
    Except String Unit × List DexCall :=
  match remote with
  | none => (.error "Dex client not configured", [])
  | some rc =>
    let deleteID := if reqID = "" && state.clientId ≠ "" then state.clientId else reqID
    if deleteID = "" then
      (.error "cannot delete client: no ID provided in request or state", [])
    else
      match rc.deleteClient deleteID with
      | .error .notFound => (.ok (), [DexCall.deleteClient deleteID])
      | .error (.other m) =>
          (.error ("failed to delete Dex client \"" ++ deleteID ++ "\": " ++ m),
           [DexCall.deleteClient deleteID])
      | .ok _ =>
        match rc.listClients with
        | .error e =>
            (.error ("delete reported success but verification failed (ListClients error): " ++
                     e.text),
             [DexCall.deleteClient deleteID, DexCall.sleepMs 200, DexCall.listClients])
        | .ok clients =>
          if clients.any (fun c => c.id == deleteID) then
            (.error ("delete reported success but client \"" ++ deleteID ++
                     "\" still exists in Dex"),
             [DexCall.deleteClient deleteID, DexCall.sleepMs 200, DexCall.listClients])
          else
            (.ok (), [DexCall.deleteClient deleteID, DexCall.sleepMs 200, DexCall.listClients])

/-! ## Generic Connector resource and its codec — embeds
`pkg/provider/resources` (connector file): `OIDCConfig`, `validateConnectorArgs`,
`buildConnectorConfigBytes`, `decodeConnector`, `Connector.Create/Update`. -/

/-- `OIDCClaimMapping` (json tags `email` / `groups`, both omitempty). -/
structure OIDCClaimMapping where
  emailKey : Option String
  groupsKey : Option String
  deriving DecidableEq, Repr

/-- `OIDCConfig`.  `extra` is the `Extra map[string]any` passthrough bucket
(json tag `-`, so it is excluded from the struct marshal). -/
structure OIDCConfig where
  issuer : String
  clientId : String
  clientSecret : String
  redirectUri : String
  scopes : List String
  insecureSkipEmailVerified : Option Bool
  insecureIssuer : Option Bool
  userNameKey : Option String
  claimMapping : Option OIDCClaimMapping
  extra : JObj

/-- Zero value of `OIDCConfig` (`&OIDCConfig{}`). -/
def defaultOIDCConfig : OIDCConfig :=
  ⟨"", "", "", "", [], none, none, none, none, []⟩

/-- `ConnectorArgs`.  `RawConfig *string` holds user-supplied JSON text,
modelled by its parse outcome (`Bytes`); `nil` is `none`. -/
structure ConnectorArgs where
  connectorId : String
  type : String
  name : String
  oidcConfig : Option OIDCConfig
  rawConfig : Option Bytes

/-- `ConnectorState` embeds `ConnectorArgs` and adds nothing. -/
structure ConnectorState extends ConnectorArgs

/-- `json.Marshal` of `OIDCClaimMapping`. -/
def marshalClaimMapping (cm : OIDCClaimMapping) : Json :=
  Json.jobj
    ((match cm.emailKey with | some e => [("email", Json.jstr e)] | none => []) ++
     (match cm.groupsKey with | some g => [("groups", Json.jstr g)] | none => []))

/-- `json.Marshal` of `OIDCConfig` followed by `json.Unmarshal` into a
`map[string]any`, as an association list in struct-field order (the order is
irrelevant: every later use goes through `getKey`).  `omitempty` drops empty
slices and nil pointers; `Extra` has tag `-`. -/
def marshalOIDC (c : OIDCConfig) : JObj :=
  [("issuer", Json.jstr c.issuer), ("clientId", Json.jstr c.clientId),
   ("clientSecret", Json.jstr c.clientSecret), ("redirectUri", Json.jstr c.redirectUri)] ++
  (if c.scopes.isEmpty then [] else [("scopes", Json.jarr (c.scopes.map Json.jstr))]) ++
  (match c.insecureSkipEmailVerified with
   | some b => [("insecureSkipEmailVerified", Json.jbool b)] | none => []) ++
  (match c.insecureIssuer with
   | some b => [("insecureIssuer", Json.jbool b)] | none => []) ++
  (match c.userNameKey with
   | some s => [("userNameKey", Json.jstr s)] | none => []) ++
  (match c.claimMapping with
   | some cm => [("claimMapping", marshalClaimMapping cm)] | none => [])

/-- The map-level part of `buildConnectorConfigBytes` for the typed OIDC path:
rename `clientId`→`clientID` and `redirectUri`→`redirectURI`, then merge the
`Extra` entries (each assignment overwrites an existing key). -/
def buildOidcConfigMap (c : OIDCConfig) : JObj :=
  let base := marshalOIDC c
  let base := match getKey base "clientId" with
    | some v => delKey (setKey base "clientID" v) "clientId"
    | none => base
  let base := match getKey base "redirectUri" with
    | some v => delKey (setKey base "redirectURI" v) "redirectUri"
    | none => base
  c.extra.foldl (fun m kv => setKey m kv.1 kv.2) base

/-- `buildConnectorConfigBytes`.  For built bytes nothing ever reads the raw
text again, so the `raw` component is the placeholder `""`. -/
def buildConnectorConfigBytes (args : ConnectorArgs) : Except String Bytes :=
  match args.oidcConfig with
  | some c => .ok (Bytes.wellFormed (Json.jobj (buildOidcConfigMap c)) "")
  | none =>
    match args.rawConfig with
    | some (Bytes.wellFormed v raw) => .ok (Bytes.wellFormed v raw)
    | _ => .error "rawConfig must be valid JSON"

/-- `validateConnectorArgs`: note it returns the FIRST violation only, as a
single error, not a collected list. -/
def validateConnectorArgs (args : ConnectorArgs) : Option String :=
  if args.connectorId = "" then some "connectorId is required"
  else if args.type = "" then some "type is required"
  else if args.name = "" then some "name is required"
  else
    let oidcSet := args.oidcConfig.isSome
    let rawSet := match args.rawConfig with
      | some Bytes.empty => false
      | some _ => true
      | none => false
    if oidcSet == rawSet then some "exactly one of oidcConfig or rawConfig must be set"
    else if args.type ≠ "oidc" && oidcSet then
      some "oidcConfig is only valid when type == \"oidc\""
    else none

/-- ASCII lower-casing of a character (what `strings.EqualFold` and
`strings.ToLower` do on the ASCII keys and tags involved here). -/
def lowerChar (c : Char) : Char :=
  if c.isUpper then Char.ofNat (c.toNat + 32) else c

/-- ASCII lower-casing of a string. -/
def lowerStr (s : String) : String := String.mk (s.toList.map lowerChar)

/-- Go `json.Unmarshal` of a value into a plain `string` struct field:
strings are taken, `null` is a no-op, type mismatches are recorded and the
field is left unchanged (the provider discards the error). -/
def strField (v : Json) (old : String) : String :=
  match v with
  | .jstr s => s
  | _ => old

/-- Unmarshal into a `*string` field (`null` sets the pointer to nil). -/
def optStrField (v : Json) (old : Option String) : Option String :=
  match v with
  | .jstr s => some s
  | .null => none
  | _ => old

/-- Unmarshal into a `*bool` field. -/
def optBoolField (v : Json) (old : Option Bool) : Option Bool :=
  match v with
  | .jbool b => some b
  | .null => none
  | _ => old

/-- Unmarshal into a `[]string` field: arrays are decoded elementwise (a
non-string element is recorded as an error and left as the zero value),
`null` sets the slice to nil. -/
def scopesField (v : Json) (old : List String) : List String :=
  match v with
  | .jarr xs => xs.map (fun j => match j with | .jstr s => s | _ => "")
  | .null => []
  | _ => old

/-- Unmarshal of a JSON object into `OIDCClaimMapping` (tags `email`,
`groups`; Go matches JSON keys to fields case-insensitively). -/
def decodeClaimMapping (fs : JObj) : OIDCClaimMapping :=
  fs.foldl (fun cm kv =>
    let kl := lowerStr kv.1
    if kl = "email" then { cm with emailKey := optStrField kv.2 cm.emailKey }
    else if kl = "groups" then { cm with groupsKey := optStrField kv.2 cm.groupsKey }
    else cm) ⟨none, none⟩

/-- One JSON key applied to the typed `OIDCConfig` during unmarshal.  Go
matches the key against json tags case-insensitively (`strings.EqualFold`;
our keys are ASCII, where that is lower-casing both sides). -/
def applyOidcField (c : OIDCConfig) (k : String) (v : Json) : OIDCConfig :=
  let kl := lowerStr k
  if kl = "issuer" then { c with issuer := strField v c.issuer }
  else if kl = "clientid" then { c with clientId := strField v c.clientId }
  else if kl = "clientsecret" then { c with clientSecret := strField v c.clientSecret }
  else if kl = "redirecturi" then { c with redirectUri := strField v c.redirectUri }
  else if kl = "scopes" then { c with scopes := scopesField v c.scopes }
  else if kl = "insecureskipemailverified" then
    { c with insecureSkipEmailVerified := optBoolField v c.insecureSkipEmailVerified }
  else if kl = "insecureissuer" then
    { c with insecureIssuer := optBoolField v c.insecureIssuer }
  else if kl = "usernamekey" then { c with userNameKey := optStrField v c.userNameKey }
  else if kl = "claimmapping" then
    { c with claimMapping :=
        match v with
        | .jobj fs => some (decodeClaimMapping fs)
        | .null => none
        | _ => c.claimMapping }
  else c

/-- `json.Unmarshal` of the re-marshalled map into `&OIDCConfig{}`: keys in
document order, later keys overwriting earlier matches. -/
def decodeTypedOIDC (m : JObj) : OIDCConfig :=
  m.foldl (fun c kv => applyOidcField c kv.1 kv.2) defaultOIDCConfig

/-- `api.Connector`. -/
structure ApiConnector where
  id : String
  type : String
  name : String
  config : Bytes

/-- `api.CreateConnectorResp`. -/
structure CreateConnectorResp where
  alreadyExists : Bool
  deriving DecidableEq, Repr

/-- `api.UpdateConnectorReq` as the provider builds it. -/
structure UpdateConnectorReq where
  id : String
  newType : String
  newName : String
  newConfig : Bytes

/-- The Remote Identity Client for connector kinds (Dex has no
get-connector-by-id RPC, only list). -/
structure ConnectorRemote where
  createConnector : ApiConnector → Except GrpcErr CreateConnectorResp
  listConnectors : Except GrpcErr (List ApiConnector)
  updateConnector : UpdateConnectorReq → Except GrpcErr Unit
  deleteConnector : String → Except GrpcErr Unit

/-- `decodeConnector`: every return path carries a nil error. -/
def decodeConnector (con : ApiConnector) : Except String (ConnectorArgs × ConnectorState) :=
  let base0 : ConnectorArgs :=
    { connectorId := con.id, type := con.type, name := con.name,
      oidcConfig := none, rawConfig := none }
  let args :=
    match con.type == "oidc", con.config with
    | true, Bytes.wellFormed (Json.jobj m) _ =>
        let oidc := decodeTypedOIDC m
        let base := match getKey m "clientID" with
          | some v => delKey (setKey m "clientId" v) "clientID"
          | none => m
        let base := match getKey base "redirectURI" with
          | some v => delKey (setKey base "redirectUri" v) "redirectURI"
          | none => base
        let base := delKey (delKey (delKey (delKey (delKey (delKey (delKey (delKey (delKey base
          "issuer") "clientId") "clientSecret") "redirectUri") "scopes")
          "insecureSkipEmailVerified") "insecureIssuer") "userNameKey") "claimMapping"
        let oidc := if base.isEmpty then oidc else { oidc with extra := base }
        { base0 with oidcConfig := some oidc }
    | true, Bytes.wellFormed Json.null _ =>
        -- `json.Unmarshal` of `null` into a map is a no-op without error, so
        -- the typed branch proceeds with an empty map
        { base0 with oidcConfig := some defaultOIDCConfig }
    | true, Bytes.wellFormed _ _ =>
        -- valid JSON that is not an object: decoding into a map fails, fall
        -- back to exposing the bytes as rawConfig
        { base0 with rawConfig := some con.config }
    | true, Bytes.malformed _ => { base0 with rawConfig := some con.config }
    | true, Bytes.empty => base0
    | false, Bytes.empty => base0
    | false, _ => { base0 with rawConfig := some con.config }
  .ok (args, { toConnectorArgs := args })

/-- `Connector.Create`. -/
def connectorCreate (remote : Option ConnectorRemote) (dryRun : Bool)
    (args : ConnectorArgs) :
    Except String (CreateResponse ConnectorState) × List DexCall :=
  if dryRun then
    (.ok ⟨args.connectorId, { toConnectorArgs := args }⟩, [])
  else
    match remote with
    | none => (.error "Dex client not configured", [])
    | some rc =>
      match validateConnectorArgs args with
      | some e => (.error e, [])
      | none =>
        match buildConnectorConfigBytes args with
        | .error e => (.error e, [])
        | .ok configBytes =>
          let conn : ApiConnector :=
            { id := args.connectorId, type := args.type, name := args.name,
              config := configBytes }
          match rc.createConnector conn with
          | .error e =>
              (.error (wrapError "create" "connector" args.connectorId e.text),
               [DexCall.createConnector conn.id conn.type conn.name conn.config])
          | .ok resp =>
            if resp.alreadyExists then
              match rc.listConnectors with
              | .error e =>
                  (.error ("connector already exists but failed to list connectors: " ++
                           e.text),
                   [DexCall.createConnector conn.id conn.type conn.name conn.config,
                    DexCall.listConnectors])
              | .ok conns =>
                match conns.find? (fun c => c.id == args.connectorId) with
                | none =>
                    (.error "connector already exists but not found in list",
                     [DexCall.createConnector conn.id conn.type conn.name conn.config,
                      DexCall.listConnectors])
                | some found =>
                  match decodeConnector found with
                  | .error e =>
                      (.error ("failed to decode existing connector: " ++ e),
                       [DexCall.createConnector conn.id conn.type conn.name conn.config,
                        DexCall.listConnectors])
                  | .ok (existingArgs, _) =>
                      (.ok ⟨args.connectorId, { toConnectorArgs := existingArgs }⟩,
                       [DexCall.createConnector conn.id conn.type conn.name conn.config,
                        DexCall.listConnectors])
            else
              (.ok ⟨args.connectorId, { toConnectorArgs := args }⟩,
               [DexCall.createConnector conn.id conn.type conn.name conn.config])

/-- `Connector.Update`. -/
def connectorUpdate (remote : Option ConnectorRemote) (dryRun : Bool)
    (args : ConnectorArgs) (old : ConnectorState) :
    Except String ConnectorState × List DexCall :=
  if dryRun then
    (.ok { toConnectorArgs := args }, [])
  else
    match remote with
    | none => (.error "Dex client not configured", [])
    | some rc =>
      if args.connectorId ≠ old.connectorId then
        (.error ("connectorId cannot be changed (was \"" ++ old.connectorId ++
                 "\", got \"" ++ args.connectorId ++ "\")"), [])
      else
        match validateConnectorArgs args with
        | some e => (.error e, [])
        | none =>
          match buildConnectorConfigBytes args with
          | .error e => (.error e, [])
          | .ok configBytes =>
            let updateReq : UpdateConnectorReq :=
              { id := args.connectorId, newType := args.type,
                newName := args.name, newConfig := configBytes }
            match rc.updateConnector updateReq with
            | .error e =>
                (.error (wrapError "update" "connector" args.connectorId e.text),
                 [DexCall.updateConnector updateReq.id updateReq.newType
                    updateReq.newName updateReq.newConfig])
            | .ok _ =>
                (.ok { toConnectorArgs := args },
                 [DexCall.updateConnector updateReq.id updateReq.newType
                    updateReq.newName updateReq.newConfig])

/-! ## Specialized connector flavors — embeds
`pkg/provider/resources/cognito_connector.go` and the Azure OIDC connector.
`infer.DefaultCheck` is Pulumi library code outside this repository; the
`Check` embeddings take its output (the decoded args and any failures it
collected) as parameters and model only this repository's additions. -/

/-- `p.CheckFailure`. -/
structure CheckFailure where
  property : String
  reason : String
  deriving DecidableEq, Repr

/-- `CognitoOidcConnectorArgs`. -/
structure CognitoOidcConnectorArgs where
  connectorId : String
  name : String
  region : String
  userPoolId : String
  clientId : String
  clientSecret : String
  redirectUri : String
  scopes : List String
  userNameSource : Option String
  extraOidc : JObj

/-- `CognitoOidcConnectorState` embeds the args. -/
structure CognitoOidcConnectorState extends CognitoOidcConnectorArgs

/-- The regexp `^[a-z0-9-]+$` from `CognitoOidcConnector.Check`. -/
def regionCharsOk (s : String) : Bool :=
  s ≠ "" && s.toList.all (fun c => c.isLower || c.isDigit || c = '-')

/-- `CognitoOidcConnector.Check` after `infer.DefaultCheck`: appends each
violation to the failures list (it does not stop at the first) and injects
the default scope set. -/
def cognitoCheck (args : CognitoOidcConnectorArgs) (priorFailures : List CheckFailure) :
    CognitoOidcConnectorArgs × List CheckFailure :=
  let failures := priorFailures
  let failures :=
    if args.region ≠ "" && !regionCharsOk args.region then
      failures ++ [⟨"region", "must be a valid AWS region identifier"⟩]
    else failures
  let failures :=
    match args.userNameSource with
    | some u =>
        if u ≠ "email" && u ≠ "sub" then
          failures ++ [⟨"userNameSource", "must be one of: email, sub"⟩]
        else failures
    | none => failures
  let args :=
    if args.scopes.isEmpty then { args with scopes := ["openid", "email", "profile"] }
    else args
  (args, failures)

/-- Issuer template of `CognitoOidcConnector.Create`/`Update`. -/
def cognitoIssuer (region userPoolId : String) : String :=
  "https://cognito-idp." ++ region ++ ".amazonaws.com/" ++ userPoolId

/-- OIDC config map built by `CognitoOidcConnector.Create` (and `Update`). -/
def cognitoOidcConfig (args : CognitoOidcConnectorArgs) : JObj :=
  let userNameKey := ptrOr args.userNameSource "email"
  let base : JObj :=
    [("issuer", Json.jstr (cognitoIssuer args.region args.userPoolId)),
     ("clientID", Json.jstr args.clientId),
     ("clientSecret", Json.jstr args.clientSecret),
     ("redirectURI", Json.jstr args.redirectUri),
     ("scopes", Json.jarr (args.scopes.map Json.jstr)),
     ("userNameKey", Json.jstr userNameKey)]
  args.extraOidc.foldl (fun m kv => setKey m kv.1 kv.2) base

/-- `CognitoOidcConnector.Create`: note the `AlreadyExists` response is a hard
error here, unlike the generic Client/Connector adoption path. -/
def cognitoCreate (remote : Option ConnectorRemote) (dryRun : Bool)
    (args : CognitoOidcConnectorArgs) :
    Except String (CreateResponse CognitoOidcConnectorState) × List DexCall :=
  if dryRun then
    (.ok ⟨args.connectorId, { toCognitoOidcConnectorArgs := args }⟩, [])
  else
    match remote with
    | none => (.error "Dex client not configured", [])
    | some rc =>
      let configBytes := Bytes.wellFormed (Json.jobj (cognitoOidcConfig args)) ""
      let conn : ApiConnector :=
        { id := args.connectorId, type := "oidc", name := args.name,
          config := configBytes }
      match rc.createConnector conn with
      | .error e =>
          (.error (wrapError "create" "cognito-oidc-connector" args.connectorId e.text),
           [DexCall.createConnector conn.id conn.type conn.name conn.config])
      | .ok resp =>
        if resp.alreadyExists then
          (.error ("connector with id \"" ++ args.connectorId ++ "\" already exists"),
           [DexCall.createConnector conn.id conn.type conn.name conn.config])
        else
          (.ok ⟨args.connectorId, { toCognitoOidcConnectorArgs := args }⟩,
           [DexCall.createConnector conn.id conn.type conn.name conn.config])

/-- `CognitoOidcConnector.Update`. -/
def cognitoUpdate (remote : Option ConnectorRemote) (dryRun : Bool)
    (args : CognitoOidcConnectorArgs) (oldState : CognitoOidcConnectorState) :
    Except String CognitoOidcConnectorState × List DexCall :=
  if dryRun then
    (.ok { toCognitoOidcConnectorArgs := args }, [])
  else
    match remote with
    | none => (.error "Dex client not configured", [])
    | some rc =>
      if args.connectorId ≠ oldState.connectorId then
        (.error "connectorId cannot be changed", [])
      else if args.region ≠ oldState.region || args.userPoolId ≠ oldState.userPoolId then
        (.error "region and userPoolId cannot be changed (would require replace)", [])
      else
        let configBytes := Bytes.wellFormed (Json.jobj (cognitoOidcConfig args)) ""
        let updateReq : UpdateConnectorReq :=
          { id := args.connectorId, newType := "oidc", newName := args.name,
            newConfig := configBytes }
        match rc.updateConnector updateReq with
        | .error e =>
            (.error (wrapError "update" "cognito-oidc-connector" args.connectorId e.text),
             [DexCall.updateConnector updateReq.id updateReq.newType
                updateReq.newName updateReq.newConfig])
        | .ok _ =>
            (.ok { toCognitoOidcConnectorArgs := args },
             [DexCall.updateConnector updateReq.id updateReq.newType
                updateReq.newName updateReq.newConfig])

/-- `strings.HasPrefix` over char lists. -/
def hasPrefixStr (pre s : String) : Bool :=
  decide (pre.toList <+: s.toList)

/-- `strings.Contains` over char lists (infix occurrence). -/
def containsSub (s sub : String) : Bool :=
  decide (sub.toList <:+: s.toList)

/-- Region / user pool extraction from the stored issuer, from
`CognitoOidcConnector.Read` (lines 221-234): check prefix and substring,
split on `/` (Go `strings.Split`, modelled by `List.splitOn` on chars), take
the second dot-component of the host and the path component. -/
def cognitoExtractRegionPool (issuer : String) : String × String :=
  if hasPrefixStr "https://cognito-idp." issuer && containsSub issuer ".amazonaws.com/" then
    let parts := issuer.toList.splitOn '/'
    if parts.length ≥ 4 then
      let domainParts := (parts.getD 2 []).splitOn '.'
      let region := if domainParts.length ≥ 2 then String.mk (domainParts.getD 1 []) else ""
      (region, String.mk (parts.getD 3 []))
    else ("", "")
  else ("", "")

/-- `AzureOidcConnectorArgs`. -/
structure AzureOidcConnectorArgs where
  connectorId : String
  name : String
  tenantId : String
  clientId : String
  clientSecret : String
  redirectUri : String
  scopes : List String
  userNameSource : Option String
  extraOidc : JObj

/-- Hex digit of the lower-cased UUID regexp. -/
def isHexLower (c : Char) : Bool :=
  c.isDigit || ('a' ≤ c && c ≤ 'f')

/-- The regexp `^[0-9a-f]{8}-[0-9a-f]{4}-[0-9a-f]{4}-[0-9a-f]{4}-[0-9a-f]{12}$`
applied to `strings.ToLower(tenantId)` in `AzureOidcConnector.Check`. -/
def uuidOk (s : String) : Bool :=
  let l := (lowerStr s).toList
  l.length = 36 &&
    (List.range 36).all (fun i =>
      if i = 8 || i = 13 || i = 18 || i = 23 then l.getD i ' ' = '-'
      else isHexLower (l.getD i ' '))

/-- `AzureOidcConnector.Check` after `infer.DefaultCheck`: collects every
violation into the failures list and injects the default scope set. -/
def azureCheck (args : AzureOidcConnectorArgs) (priorFailures : List CheckFailure) :
    AzureOidcConnectorArgs × List CheckFailure :=
  let failures := priorFailures
  let failures :=
    if args.tenantId ≠ "" && !uuidOk args.tenantId then
      failures ++ [⟨"tenantId", "must be a valid UUID"⟩]
    else failures
  let failures :=
    match args.userNameSource with
    | some u =>
        if u ≠ "preferred_username" && u ≠ "upn" && u ≠ "email" then
          failures ++ [⟨"userNameSource", "must be one of: preferred_username, upn, email"⟩]
        else failures
    | none => failures
  let args :=
    if args.scopes.isEmpty then
      { args with scopes := ["openid", "profile", "email", "offline_access"] }
    else args
  (args, failures)

/-! ## Claim theorems -/

/-- C2: with the simulate-only (dry-run) flag set, Create and Update of every
embedded object kind return immediately with a state that exactly mirrors the
declared inputs (in particular the secret field is exactly the supplied one,
possibly absent, and never invented), and the remote call list is empty,
regardless of the remote, the randomness, and the validity of the inputs. -/
theorem c2_simulate_purity :
    ∀ (remote : Option ClientRemote) (cremote : Option ConnectorRemote)
      (randBytes : Except String (List Nat)) (now : String)
      (cargs : ClientArgs) (cst : ClientState) (nargs : ConnectorArgs)
      (nst : ConnectorState) (kargs : CognitoOidcConnectorArgs)
      (kst : CognitoOidcConnectorState),
      clientCreate remote randBytes now true cargs =
        (.ok ⟨cargs.clientId, { toClientArgs := cargs, createdAt := none }⟩, []) ∧
      clientUpdate remote true cargs cst =
        (.ok { toClientArgs := cargs, createdAt := none }, []) ∧
      connectorCreate cremote true nargs =
        (.ok ⟨nargs.connectorId, { toConnectorArgs := nargs }⟩, []) ∧
      connectorUpdate cremote true nargs nst =
        (.ok { toConnectorArgs := nargs }, []) ∧
      cognitoCreate cremote true kargs =
        (.ok ⟨kargs.connectorId, { toCognitoOidcConnectorArgs := kargs }⟩, []) ∧
      cognitoUpdate cremote true kargs kst =
        (.ok { toCognitoOidcConnectorArgs := kargs }, []) := by
  intros
  exact ⟨rfl, rfl, rfl, rfl, rfl, rfl⟩

/-- C5: a successful real-mode Client Update returns the prior secret
verbatim and the prior createdAt unchanged, and the single remote call is an
update request whose type (`UpdateClientReq`) carries no secret field. -/
theorem c5_update_keeps_secret (rc : ClientRemote) (args : ClientArgs)
    (old : ClientState) (hid : args.clientId = old.clientId)
    (hupd : ∀ r, rc.updateClient r = .ok ()) :
    clientUpdate (some rc) false args old =
      (.ok { clientId := args.clientId, name := args.name, secret := old.secret,
             redirectUris := args.redirectUris, trustedPeers := args.trustedPeers,
             public := args.public, logoUrl := args.logoUrl,
             createdAt := old.createdAt },
       [DexCall.updateClient
          { id := args.clientId, name := args.name,
            redirectUris := args.redirectUris, trustedPeers := args.trustedPeers,
            logoUrl := ptrOr args.logoUrl "" }]) := by
  simp only [clientUpdate, Bool.false_eq_true, if_false]
  rw [if_neg (by simp [hid])]
  rw [hupd]

/-- Witness for C5 at a concrete update. -/
theorem c5_update_keeps_secret_witness :
    clientUpdate
      (some { createClient := fun _ => .ok ⟨false⟩,
              getClient := fun _ => .error .notFound,
              listClients := .ok [],
              updateClient := fun _ => .ok (),
              deleteClient := fun _ => .ok () })
      false
      { clientId := "web-app", name := "new-name", secret := none,
        redirectUris := ["https://app.example/cb"], trustedPeers := [],
        public := none, logoUrl := none }
      { clientId := "web-app", name := "old-name", secret := some "s3cr3t",
        redirectUris := ["https://app.example/cb"], trustedPeers := [],
        public := none, logoUrl := none, createdAt := some "2024-01-01T00:00:00Z" } =
      (.ok { clientId := "web-app", name := "new-name", secret := some "s3cr3t",
             redirectUris := ["https://app.example/cb"], trustedPeers := [],
             public := none, logoUrl := none,
             createdAt := some "2024-01-01T00:00:00Z" },
       [DexCall.updateClient
          { id := "web-app", name := "new-name",
            redirectUris := ["https://app.example/cb"], trustedPeers := [],
            logoUrl := "" }]) :=
  c5_update_keeps_secret _ _ _ rfl (fun _ => rfl)

/-- C6: a real-mode Update whose inputs change the object id — or, for the
Cognito connector, the immutable region / userPoolId — returns an error
without performing any remote call, for each embedded kind. -/
theorem c6_immutable_fields :
    (∀ (rc : ClientRemote) (args : ClientArgs) (old : ClientState),
      args.clientId ≠ old.clientId →
      ∃ msg, clientUpdate (some rc) false args old = (.error msg, [])) ∧
    (∀ (rc : ConnectorRemote) (args : ConnectorArgs) (old : ConnectorState),
      args.connectorId ≠ old.connectorId →
      ∃ msg, connectorUpdate (some rc) false args old = (.error msg, [])) ∧
    (∀ (rc : ConnectorRemote) (args : CognitoOidcConnectorArgs)
       (old : CognitoOidcConnectorState),
      args.connectorId ≠ old.connectorId →
      ∃ msg, cognitoUpdate (some rc) false args old = (.error msg, [])) ∧
    (∀ (rc : ConnectorRemote) (args : CognitoOidcConnectorArgs)
       (old : CognitoOidcConnectorState),
      args.connectorId = old.connectorId →
      (args.region ≠ old.region ∨ args.userPoolId ≠ old.userPoolId) →
      ∃ msg, cognitoUpdate (some rc) false args old = (.error msg, [])) := by
  refine ⟨?_, ?_, ?_, ?_⟩
  · intro rc args old h
    exact ⟨_, by simp only [clientUpdate, Bool.false_eq_true, if_false]; rw [if_pos h]⟩
  · intro rc args old h
    exact ⟨_, by simp only [connectorUpdate, Bool.false_eq_true, if_false]; rw [if_pos h]⟩
  · intro rc args old h
    exact ⟨_, by simp only [cognitoUpdate, Bool.false_eq_true, if_false]; rw [if_pos h]⟩
  · intro rc args old hid h
    refine ⟨"region and userPoolId cannot be changed (would require replace)", ?_⟩
    simp only [cognitoUpdate, Bool.false_eq_true, if_false]
    rw [if_neg (by simp [hid]),
      if_pos (by simp only [Bool.or_eq_true, decide_eq_true_eq]; exact h)]

/-- Witness for C6 at concrete changed inputs. -/
theorem c6_immutable_fields_witness :
    (∃ msg, cognitoUpdate
      (some { createConnector := fun _ => .ok ⟨false⟩,
              listConnectors := .ok [],
              updateConnector := fun _ => .ok (),
              deleteConnector := fun _ => .ok () })
      false
      { connectorId := "cog", name := "n", region := "us-east-1",
        userPoolId := "pool-b", clientId := "cid", clientSecret := "cs",
        redirectUri := "https://dex/cb", scopes := [], userNameSource := none,
        extraOidc := [] }
      { connectorId := "cog", name := "n", region := "us-east-1",
        userPoolId := "pool-a", clientId := "cid", clientSecret := "cs",
        redirectUri := "https://dex/cb", scopes := [], userNameSource := none,
        extraOidc := [] } = (.error msg, [])) :=
  c6_immutable_fields.2.2.2 _ _ _ rfl (Or.inr (by decide))

/-- C10: `decodeConnector` never fails (every input yields a nil error), and
when the type is `oidc` with config bytes that are not valid JSON — or the
type is anything else with nonempty config — the bytes are exposed verbatim
as the raw configuration. -/
theorem c10_decode_total :
    (∀ con : ApiConnector, ∃ p, decodeConnector con = .ok p) ∧
    (∀ id name raw, ∃ a st,
      decodeConnector ⟨id, "oidc", name, Bytes.malformed raw⟩ = .ok (a, st) ∧
      a.rawConfig = some (Bytes.malformed raw)) ∧
    (∀ id ty name v raw, ty ≠ "oidc" → ∃ a st,
      decodeConnector ⟨id, ty, name, Bytes.wellFormed v raw⟩ = .ok (a, st) ∧
      a.rawConfig = some (Bytes.wellFormed v raw)) ∧
    (∀ id ty name raw, ty ≠ "oidc" → ∃ a st,
      decodeConnector ⟨id, ty, name, Bytes.malformed raw⟩ = .ok (a, st) ∧
      a.rawConfig = some (Bytes.malformed raw)) := by
  refine ⟨?_, ?_, ?_, ?_⟩
  · intro con
    exact ⟨_, rfl⟩
  · intro id name raw
    exact ⟨_, _, rfl, rfl⟩
  · intro id ty name v raw h
    have hb : (ty == "oidc") = false := by simpa using h
    refine ⟨{ connectorId := id, type := ty, name := name, oidcConfig := none,
              rawConfig := some (Bytes.wellFormed v raw) },
            { toConnectorArgs :=
              { connectorId := id, type := ty, name := name, oidcConfig := none,
                rawConfig := some (Bytes.wellFormed v raw) } }, ?_, rfl⟩
    simp only [decodeConnector, hb]
  · intro id ty name raw h
    have hb : (ty == "oidc") = false := by simpa using h
    refine ⟨{ connectorId := id, type := ty, name := name, oidcConfig := none,
              rawConfig := some (Bytes.malformed raw) },
            { toConnectorArgs :=
              { connectorId := id, type := ty, name := name, oidcConfig := none,
                rawConfig := some (Bytes.malformed raw) } }, ?_, rfl⟩
    simp only [decodeConnector, hb]

/-- Witness for C10 at a concrete non-oidc connector. -/
theorem c10_decode_total_witness :
    ∃ a st,
      decodeConnector ⟨"ldap-1", "ldap", "LDAP", Bytes.malformed "not json"⟩ =
        .ok (a, st) ∧
      a.rawConfig = some (Bytes.malformed "not json") :=
  c10_decode_total.2.2.2 "ldap-1" "ldap" "LDAP" "not json" (by decide)

/-- C1: after the remote DeleteClient reports success, Client Delete performs
exactly one bounded settle delay (200 ms) and one re-enumeration; if the
verification list call fails, or the deleted id still appears in the list,
Delete returns an error, and only the absent case returns success. -/
theorem c1_delete_verifies (rc : ClientRemote) (reqID : String) (st : ClientState)
    (deleteID : String)
    (hID : deleteID = if reqID = "" && st.clientId ≠ "" then st.clientId else reqID)
    (hne : deleteID ≠ "")
    (hdel : rc.deleteClient deleteID = .ok ()) :
    (clientDelete (some rc) reqID st).2 =
      [DexCall.deleteClient deleteID, DexCall.sleepMs 200, DexCall.listClients] ∧
    (∀ e, rc.listClients = .error e →
      ∃ msg, (clientDelete (some rc) reqID st).1 = .error msg) ∧
    (∀ cs, rc.listClients = .ok cs → (∃ c ∈ cs, c.id = deleteID) →
      ∃ msg, (clientDelete (some rc) reqID st).1 = .error msg) ∧
    (∀ cs, rc.listClients = .ok cs → (∀ c ∈ cs, c.id ≠ deleteID) →
      (clientDelete (some rc) reqID st).1 = .ok ()) := by
  refine ⟨?_, ?_, ?_, ?_⟩
  · simp only [clientDelete]
    rw [← hID]
    simp only [if_neg hne, hdel]
    cases hl : rc.listClients with
    | error e => simp
    | ok cs =>
      by_cases hmem : cs.any (fun c => c.id == deleteID) = true
      · simp [hmem]
      · simp [hmem]
  · intro e he
    refine ⟨"delete reported success but verification failed (ListClients error): " ++
      e.text, ?_⟩
    simp only [clientDelete]
    rw [← hID]
    simp only [if_neg hne, hdel, he]
  · intro cs hcs hex
    have hmem : cs.any (fun c => c.id == deleteID) = true := by
      rcases hex with ⟨c, hc, hcid⟩
      exact List.any_eq_true.mpr ⟨c, hc, by simp [hcid]⟩
    refine ⟨"delete reported success but client \"" ++ deleteID ++
      "\" still exists in Dex", ?_⟩
    simp only [clientDelete]
    rw [← hID]
    simp only [if_neg hne, hdel, hcs, hmem, if_true, reduceIte]
  · intro cs hcs hall
    have hmem : (cs.any fun c => c.id == deleteID) = false := by
      rw [Bool.eq_false_iff]
      simp only [ne_eq, List.any_eq_true]
      rintro ⟨c, hc, hcid⟩
      exact hall c hc (by simpa using hcid)
    simp only [clientDelete]
    rw [← hID]
    simp only [if_neg hne, hdel, hcs, hmem, if_false, Bool.false_eq_true, reduceIte]

/-- Witness for C1: a mocked remote whose delete reports success but whose
list still contains the id makes Delete fail. -/
theorem c1_delete_verifies_witness :
    ∃ msg,
      (clientDelete
        (some { createClient := fun _ => .ok ⟨false⟩,
                getClient := fun _ => .error .notFound,
                listClients := .ok [{ id := "web-app", secret := "", redirectUris := [],
                                      trustedPeers := [], name := "", logoUrl := "",
                                      public := false }],
                updateClient := fun _ => .ok (),
                deleteClient := fun _ => .ok () })
        "web-app"
        { clientId := "web-app", name := "", secret := none, redirectUris := [],
          trustedPeers := [], public := none, logoUrl := none,
          createdAt := none }).1 = .error msg :=
  (c1_delete_verifies _ "web-app" _ "web-app" rfl (by decide) rfl).2.2.1
    _ rfl ⟨_, List.mem_singleton.mpr rfl, rfl⟩

/-- C4: for real-mode Client Create that succeeds at the remote, a supplied
non-empty secret is returned verbatim; otherwise the returned secret is the
URL-safe base64 encoding of the 32 random bytes drawn from the secure source,
and distinct random bytes yield distinct secrets. -/
theorem c4_secret_policy :
    (∀ (rc : ClientRemote) (randBytes : Except String (List Nat)) (now : String)
       (args : ClientArgs) (s : String),
      args.secret = some s → s ≠ "" →
      (∀ c, rc.createClient c = .ok ⟨false⟩) →
      ∃ st, (clientCreate (some rc) randBytes now false args).1 =
              .ok ⟨args.clientId, st⟩ ∧ st.secret = some s) ∧
    (∀ (rc : ClientRemote) (bs : List Nat) (now : String) (args : ClientArgs),
      (args.secret = none ∨ args.secret = some "") →
      bs.length = 32 →
      (∀ c, rc.createClient c = .ok ⟨false⟩) →
      ∃ st, (clientCreate (some rc) (.ok bs) now false args).1 =
              .ok ⟨args.clientId, st⟩ ∧ st.secret = some (base64UrlEncode bs)) ∧
    (∀ bs1 bs2 : List Nat, bs1.length = 32 → bs2.length = 32 →
      (∀ b ∈ bs1, b < 256) → (∀ b ∈ bs2, b < 256) → bs1 ≠ bs2 →
      base64UrlEncode bs1 ≠ base64UrlEncode bs2) := by
  refine ⟨?_, ?_, ?_⟩
  · intro rc randBytes now args s hs hne hcr
    refine ⟨{ clientId := args.clientId, name := args.name, secret := some s,
              redirectUris := args.redirectUris, trustedPeers := args.trustedPeers,
              public := args.public, logoUrl := args.logoUrl, createdAt := some now },
            ?_, rfl⟩
    simp [clientCreate, hs, if_neg hne, hcr]
  · intro rc bs now args hs hlen hcr
    refine ⟨{ clientId := args.clientId, name := args.name,
              secret := some (base64UrlEncode bs),
              redirectUris := args.redirectUris, trustedPeers := args.trustedPeers,
              public := args.public, logoUrl := args.logoUrl, createdAt := some now },
            ?_, rfl⟩
    rcases hs with hs | hs <;>
      simp [clientCreate, hs, genClientSecret, hcr]
  · intro bs1 bs2 _ _ hb1 hb2 hne heq
    exact hne (base64UrlEncode_inj hb1 hb2 heq)

/-- Witness for C4: a generated secret at a concrete random draw. -/
theorem c4_secret_policy_witness :
    ∃ st, (clientCreate
      (some { createClient := fun _ => .ok ⟨false⟩,
              getClient := fun _ => .error .notFound,
              listClients := .ok [],
              updateClient := fun _ => .ok (),
              deleteClient := fun _ => .ok () })
      (.ok (List.range 32)) "2024-01-01T00:00:00Z" false
      { clientId := "web-app", name := "Web", secret := none,
        redirectUris := ["https://app.example/cb"], trustedPeers := [],
        public := none, logoUrl := none }).1 =
        .ok ⟨"web-app", st⟩ ∧ st.secret = some (base64UrlEncode (List.range 32)) :=
  c4_secret_policy.2.1 _ (List.range 32) _ _ (Or.inl rfl) (by decide) (fun _ => rfl)

/-- C9 (corrected): the Check-based validations collect every violation of a
call into the (field, reason) failures list, appended in order; the generic
Connector's `validateConnectorArgs`, by contrast, stops at the first
violation and reports it alone (see the counterexample). -/
theorem c9_validation_collects :
    (∀ (args : AzureOidcConnectorArgs) (prior : List CheckFailure) (u : String),
      args.tenantId ≠ "" → uuidOk args.tenantId = false →
      args.userNameSource = some u →
      u ≠ "preferred_username" → u ≠ "upn" → u ≠ "email" →
      (azureCheck args prior).2 =
        prior ++ [⟨"tenantId", "must be a valid UUID"⟩,
                  ⟨"userNameSource", "must be one of: preferred_username, upn, email"⟩]) ∧
    (∀ (args : CognitoOidcConnectorArgs) (prior : List CheckFailure) (u : String),
      args.region ≠ "" → regionCharsOk args.region = false →
      args.userNameSource = some u → u ≠ "email" → u ≠ "sub" →
      (cognitoCheck args prior).2 =
        prior ++ [⟨"region", "must be a valid AWS region identifier"⟩,
                  ⟨"userNameSource", "must be one of: email, sub"⟩]) ∧
    (∀ args : ConnectorArgs, args.connectorId = "" →
      validateConnectorArgs args = some "connectorId is required") := by
  refine ⟨?_, ?_, ?_⟩
  · intro args prior u ht hu hus h1 h2 h3
    simp [azureCheck, ht, hu, hus, h1, h2, h3, List.append_assoc]
  · intro args prior u hr hro hus h1 h2
    simp [cognitoCheck, hr, hro, hus, h1, h2, List.append_assoc]
  · intro args h
    simp [validateConnectorArgs, h]

/-- Counterexample for C9: an input missing connectorId, type, and name at
once; the generic connector validation reports only the first violation, as a
single error string rather than a list of (field, reason) pairs. -/
theorem c9_counterexample :
    validateConnectorArgs
      { connectorId := "", type := "", name := "",
        oidcConfig := none, rawConfig := none } =
      some "connectorId is required" ∧
    ({ connectorId := "", type := "", name := "",
       oidcConfig := none, rawConfig := none } : ConnectorArgs).type = "" ∧
    ({ connectorId := "", type := "", name := "",
       oidcConfig := none, rawConfig := none } : ConnectorArgs).name = "" :=
  ⟨rfl, rfl, rfl⟩

/-- Witness for C9 at concrete invalid Azure inputs. -/
theorem c9_validation_collects_witness :
    (azureCheck
      { connectorId := "az", name := "n", tenantId := "not-a-uuid",
        clientId := "cid", clientSecret := "cs", redirectUri := "https://dex/cb",
        scopes := [], userNameSource := some "login", extraOidc := [] } []).2 =
      [⟨"tenantId", "must be a valid UUID"⟩,
       ⟨"userNameSource", "must be one of: preferred_username, upn, email"⟩] :=
  c9_validation_collects.1 _ [] "login" (by decide) (by decide) rfl
    (by decide) (by decide) (by decide)

/-- C3 (corrected): in real mode, when the remote create reports that the id
already exists, the Client and generic Connector kinds do not fail — they
re-read the object with that id (GetClient, or list-and-filter) and return
its decoded state.  The specialized connector flavors (here: Cognito) instead
return an "already exists" error, as the counterexample exhibits. -/
theorem c3_already_exists_adoption :
    (∀ (rc : ClientRemote) (bs : List Nat) (now : String) (args : ClientArgs)
       (g : ApiClient),
      (∀ c, rc.createClient c = .ok ⟨true⟩) →
      rc.getClient args.clientId = .ok g →
      (clientCreate (some rc) (.ok bs) now false args).1 =
        .ok ⟨args.clientId,
          { clientId := g.id, name := g.name, secret := some g.secret,
            redirectUris := g.redirectUris, trustedPeers := g.trustedPeers,
            public := some g.public, logoUrl := some g.logoUrl,
            createdAt := none }⟩) ∧
    (∀ (rc : ConnectorRemote) (args : ConnectorArgs) (cb : Bytes)
       (conns : List ApiConnector) (found : ApiConnector)
       (ea : ConnectorArgs) (es : ConnectorState),
      validateConnectorArgs args = none →
      buildConnectorConfigBytes args = .ok cb →
      (∀ c, rc.createConnector c = .ok ⟨true⟩) →
      rc.listConnectors = .ok conns →
      conns.find? (fun c => c.id == args.connectorId) = some found →
      decodeConnector found = .ok (ea, es) →
      (connectorCreate (some rc) false args).1 =
        .ok ⟨args.connectorId, { toConnectorArgs := ea }⟩) ∧
    (∀ (rc : ConnectorRemote) (args : CognitoOidcConnectorArgs),
      (∀ c, rc.createConnector c = .ok ⟨true⟩) →
      ∃ msg, (cognitoCreate (some rc) false args).1 = .error msg) := by
  refine ⟨?_, ?_, ?_⟩
  · intro rc bs now args g hcr hget
    rcases hsec : args.secret with _ | s0
    · simp [clientCreate, hcr, hget, hsec, genClientSecret]
    · by_cases h0 : s0 = "" <;>
        simp [clientCreate, hcr, hget, hsec, h0, genClientSecret]
  · intro rc args cb conns found ea es hval hbuild hcr hlist hfind hdec
    simp [connectorCreate, hval, hbuild, hcr, hlist, hfind, hdec]
  · intro rc args hcr
    refine ⟨"connector with id \"" ++ args.connectorId ++ "\" already exists", ?_⟩
    simp [cognitoCreate, hcr]

/-- Counterexample for C3: a specialized connector flavor (Cognito) whose
remote reports already-exists returns an error instead of adopting. -/
theorem c3_counterexample :
    (cognitoCreate
      (some { createConnector := fun _ => .ok ⟨true⟩,
              listConnectors := .ok [],
              updateConnector := fun _ => .ok (),
              deleteConnector := fun _ => .ok () })
      false
      { connectorId := "cog", name := "n", region := "us-east-1",
        userPoolId := "pool-a", clientId := "cid", clientSecret := "cs",
        redirectUri := "https://dex/cb", scopes := ["openid"],
        userNameSource := none, extraOidc := [] }).1 =
      .error "connector with id \"cog\" already exists" := rfl

/-- Witness for C3 at a concrete adopted Client. -/
theorem c3_already_exists_adoption_witness :
    (clientCreate
      (some { createClient := fun _ => .ok ⟨true⟩,
              getClient := fun _ => .ok
                { id := "web-app", secret := "remote-secret",
                  redirectUris := ["https://app.example/cb"], trustedPeers := [],
                  name := "Remote", logoUrl := "", public := false },
              listClients := .ok [],
              updateClient := fun _ => .ok (),
              deleteClient := fun _ => .ok () })
      (.ok (List.range 32)) "2024-01-01T00:00:00Z" false
      { clientId := "web-app", name := "Web", secret := none,
        redirectUris := ["https://app.example/cb"], trustedPeers := [],
        public := none, logoUrl := none }).1 =
      .ok ⟨"web-app",
        { clientId := "web-app", name := "Remote", secret := some "remote-secret",
          redirectUris := ["https://app.example/cb"], trustedPeers := [],
          public := some false, logoUrl := some "", createdAt := none }⟩ :=
  c3_already_exists_adoption.1 _ (List.range 32) _ _ _ (fun _ => rfl) rfl

/-- Splitting at an explicit first separator occurrence. -/
theorem splitOn_sep {c : Char} (l1 l2 : List Char) (h : c ∉ l1) :
    (l1 ++ c :: l2).splitOn c = l1 :: l2.splitOn c := by
  simp only [List.splitOn]
  exact List.splitOnP_first _ l1 (fun x hx => by simp; exact fun e => h (e ▸ hx)) c
    (by simp) l2

/-- Splitting a separator-free list. -/
theorem splitOn_no_sep {c : Char} (l : List Char) (h : c ∉ l) :
    l.splitOn c = [l] := by
  simp only [List.splitOn]
  exact List.splitOnP_eq_single _ _ (fun x hx => by simp; exact fun e => h (e ▸ hx))

theorem string_mk_toList (s : String) : String.mk s.toList = s := rfl

/-- C8 (corrected): the Cognito encode derives the issuer from the fixed
template, and the Read-side reverse parse recovers region and userPoolId
exactly whenever the region contains no `.` and no `/` and the pool id no `/`
(every region accepted by Check's `[a-z0-9-]+` charset qualifies); when the
issuer fails the code's template test (the `https://cognito-idp.` prefix and
`.amazonaws.com/` substring checks), both are left empty rather than failing.
A region containing a dot defeats the reverse parse (see counterexample). -/
theorem c8_issuer_template :
    (∀ region pool : String,
      ('.' ∉ region.toList) → ('/' ∉ region.toList) → ('/' ∉ pool.toList) →
      cognitoExtractRegionPool (cognitoIssuer region pool) = (region, pool)) ∧
    (∀ issuer : String,
      (hasPrefixStr "https://cognito-idp." issuer &&
       containsSub issuer ".amazonaws.com/") = false →
      cognitoExtractRegionPool issuer = ("", "")) := by
  constructor
  · intro region pool hr1 hr2 hp
    have hchars : (cognitoIssuer region pool).toList =
        "https:".toList ++ '/' :: '/' ::
          (("cognito-idp.".toList ++ region.toList ++ ".amazonaws.com".toList) ++
           '/' :: pool.toList) := by
      simp [cognitoIssuer, String.toList, String.data_append, List.append_assoc]
    have hpre : hasPrefixStr "https://cognito-idp." (cognitoIssuer region pool) = true := by
      simp only [hasPrefixStr, decide_eq_true_eq]
      refine ⟨region.toList ++ ".amazonaws.com/".toList ++ pool.toList, ?_⟩
      simp [cognitoIssuer, String.toList, String.data_append, List.append_assoc]
    have hinf : containsSub (cognitoIssuer region pool) ".amazonaws.com/" = true := by
      simp only [containsSub, decide_eq_true_eq]
      refine ⟨"https://cognito-idp.".toList ++ region.toList, pool.toList, ?_⟩
      simp [cognitoIssuer, String.toList, String.data_append, List.append_assoc]
    have hnosep1 : '/' ∉ "https:".toList := by decide
    have hnosep2 : '/' ∉ ("cognito-idp.".toList ++ region.toList ++
        ".amazonaws.com".toList) := by
      simp only [List.append_assoc, List.mem_append, not_or]
      exact ⟨by decide, hr2, by decide⟩
    have hsplit : (cognitoIssuer region pool).toList.splitOn '/' =
        ["https:".toList, [],
         "cognito-idp.".toList ++ region.toList ++ ".amazonaws.com".toList,
         pool.toList] := by
      rw [hchars, splitOn_sep _ _ hnosep1,
        show ('/' :: (("cognito-idp.".toList ++ region.toList ++
          ".amazonaws.com".toList) ++ '/' :: pool.toList)) =
          ([] : List Char) ++ '/' :: (("cognito-idp.".toList ++ region.toList ++
          ".amazonaws.com".toList) ++ '/' :: pool.toList) from rfl,
        splitOn_sep _ _ (by simp), splitOn_sep _ _ hnosep2, splitOn_no_sep _ hp]
    have hhost : ("cognito-idp.".toList ++ region.toList ++
        ".amazonaws.com".toList).splitOn '.' =
        ["cognito-idp".toList, region.toList, "amazonaws".toList, "com".toList] := by
      rw [show ("cognito-idp.".toList ++ region.toList ++ ".amazonaws.com".toList) =
            "cognito-idp".toList ++ '.' ::
              (region.toList ++ '.' :: ("amazonaws".toList ++ '.' :: "com".toList))
          by simp [show "cognito-idp.".toList = "cognito-idp".toList ++ ['.'] from rfl,
               show ".amazonaws.com".toList =
                 '.' :: ("amazonaws".toList ++ '.' :: "com".toList) from rfl,
               List.append_assoc]]
      rw [splitOn_sep _ _ (by decide), splitOn_sep _ _ hr1,
        splitOn_sep _ _ (by decide), splitOn_no_sep _ (by decide)]
    simp only [cognitoExtractRegionPool]
    rw [hpre, hinf, if_pos (show (true && true) = true from rfl), hsplit]
    rw [if_pos (by simp : (4 : Nat) ≤
      (["https:".toList, ([] : List Char),
        "cognito-idp.".toList ++ region.toList ++ ".amazonaws.com".toList,
        pool.toList]).length)]
    rw [show (["https:".toList, ([] : List Char),
        "cognito-idp.".toList ++ region.toList ++ ".amazonaws.com".toList,
        pool.toList]).getD 2 [] =
        "cognito-idp.".toList ++ region.toList ++ ".amazonaws.com".toList from rfl]
    rw [show (["https:".toList, ([] : List Char),
        "cognito-idp.".toList ++ region.toList ++ ".amazonaws.com".toList,
        pool.toList]).getD 3 [] = pool.toList from rfl]
    rw [hhost]
    rw [if_pos (by simp : (2 : Nat) ≤
      (["cognito-idp".toList, region.toList, "amazonaws".toList,
        "com".toList]).length)]
    rw [show (["cognito-idp".toList, region.toList, "amazonaws".toList,
        "com".toList]).getD 1 [] = region.toList from rfl]
    rw [string_mk_toList, string_mk_toList]
  · intro issuer h
    simp only [cognitoExtractRegionPool, h, Bool.false_eq_true, if_false]

/-- Counterexample for C8: a region containing a dot round-trips wrongly —
encode of region `a.b`, pool `p` decodes to region `a`, not `a.b`. -/
theorem c8_counterexample :
    cognitoExtractRegionPool (cognitoIssuer "a.b" "p") = ("a", "p") ∧
    ("a" : String) ≠ "a.b" := by
  constructor
  · decide
  · decide

/-- Witness for C8 at a concrete well-formed region and pool. -/
theorem c8_issuer_template_witness :
    cognitoExtractRegionPool (cognitoIssuer "us-east-1" "us-east-1_AbCdEf") =
      ("us-east-1", "us-east-1_AbCdEf") :=
  c8_issuer_template.1 "us-east-1" "us-east-1_AbCdEf"
    (by decide) (by decide) (by decide)

/-! ## Association-list lemmas for the codec proofs -/

theorem getKey_nil (k : String) : getKey [] k = none := rfl

theorem getKey_cons (p : String × Json) (l : JObj) (k : String) :
    getKey (p :: l) k = if p.1 = k then some p.2 else getKey l k := by
  by_cases h : p.1 = k <;> simp [getKey, List.find?_cons, h]

theorem setKey_fresh (l : JObj) (k : String) (v : Json)
    (h : ∀ q ∈ l, q.1 ≠ k) : setKey l k v = l ++ [(k, v)] := by
  have : l.any (fun q => q.1 == k) = false := by
    simp only [List.any_eq_false]
    intro q hq
    simpa using h q hq
  simp [setKey, this]

theorem delKey_of_keys_ne (l : JObj) (k : String)
    (h : ∀ q ∈ l, q.1 ≠ k) : delKey l k = l := by
  rw [delKey, List.filter_eq_self]
  intro q hq
  simpa using h q hq

theorem getKey_map_update_ne (l : JObj) (k2 : String) (v : Json) (k : String)
    (h : k ≠ k2) :
    getKey (l.map (fun p => if p.1 == k2 then (k2, v) else p)) k = getKey l k := by
  induction l with
  | nil => rfl
  | cons p l ih =>
    simp only [List.map_cons]
    by_cases hp : (p.1 == k2) = true
    · rw [if_pos hp, getKey_cons, getKey_cons, if_neg (Ne.symm h),
        if_neg (by rw [eq_of_beq hp]; exact Ne.symm h)]
      exact ih
    · rw [if_neg hp, getKey_cons, getKey_cons]
      by_cases hk : p.1 = k
      · simp [hk]
      · rw [if_neg hk, if_neg hk]
        exact ih

theorem getKey_map_update_self (l : JObj) (k : String) (v : Json)
    (ha : l.any (fun q => q.1 == k) = true) :
    getKey (l.map (fun p => if p.1 == k then (k, v) else p)) k = some v := by
  induction l with
  | nil => simp at ha
  | cons p l ih =>
    simp only [List.map_cons]
    by_cases hp : (p.1 == k) = true
    · rw [if_pos hp, getKey_cons, if_pos rfl]
    · rw [if_neg hp, getKey_cons, if_neg (by simpa using hp)]
      apply ih
      simpa [List.any_cons, hp] using ha

theorem getKey_setKey_ne (l : JObj) (k k2 : String) (v : Json) (h : k ≠ k2) :
    getKey (setKey l k2 v) k = getKey l k := by
  by_cases ha : (l.any fun q => q.1 == k2) = true
  · rw [setKey, if_pos ha]
    exact getKey_map_update_ne l k2 v k h
  · rw [setKey, if_neg ha, getKey, List.find?_append]
    rcases hf : l.find? (fun p => p.1 == k) with _ | q
    · simp [getKey, hf, Option.orElse, Ne.symm h]
    · simp [getKey, hf, Option.orElse]

theorem getKey_setKey_self (l : JObj) (k : String) (v : Json) :
    getKey (setKey l k v) k = some v := by
  by_cases ha : (l.any fun q => q.1 == k) = true
  · rw [setKey, if_pos ha]
    exact getKey_map_update_self l k v ha
  · rw [setKey, if_neg ha, getKey, List.find?_append]
    have h1 : l.find? (fun p => p.1 == k) = none := by
      rw [List.find?_eq_none]
      intro q hq hqk
      exact ha (List.any_eq_true.mpr ⟨q, hq, hqk⟩)
    simp [h1, getKey, Option.orElse]

theorem getKey_delKey_ne (l : JObj) (k k2 : String) (h : k ≠ k2) :
    getKey (delKey l k2) k = getKey l k := by
  induction l with
  | nil => rfl
  | cons p l ih =>
    rw [delKey, List.filter_cons]
    by_cases hp : (p.1 != k2) = true
    · rw [if_pos hp]
      show getKey (p :: delKey l k2) k = _
      rw [getKey_cons, getKey_cons]
      by_cases hk : p.1 = k
      · simp [hk]
      · rw [if_neg hk, if_neg hk]
        exact ih
    · rw [if_neg hp]
      have hpk : p.1 = k2 := by simpa using hp
      show getKey (delKey l k2) k = _
      rw [getKey_cons, if_neg (by rw [hpk]; exact Ne.symm h)]
      exact ih

theorem foldl_setKey_fresh (ex : JObj) : ∀ (l : JObj),
    (∀ p ∈ ex, ∀ q ∈ l, p.1 ≠ q.1) →
    (ex.Pairwise (fun p q => p.1 ≠ q.1)) →
    ex.foldl (fun m kv => setKey m kv.1 kv.2) l = l ++ ex := by
  induction ex with
  | nil => intro l _ _; simp
  | cons p ex ih =>
    intro l hfresh hpw
    have h1 : setKey l p.1 p.2 = l ++ [p] := by
      rw [setKey_fresh]
      intro q hq
      exact (hfresh p (by simp) q hq).symm
    rw [List.foldl_cons, h1, ih (l ++ [p]) ?_ (List.Pairwise.sublist (by simp) hpw)]
    · simp
    · intro r hr q hq
      rcases List.mem_append.mp hq with h2 | h2
      · exact hfresh r (by simp [hr]) q h2
      · rw [List.mem_singleton.mp h2]
        exact ((List.pairwise_cons.mp hpw).1 r hr).symm

theorem getKey_foldl_setKey_of_ne (ex : JObj) : ∀ (l : JObj) (k : String),
    (∀ p ∈ ex, p.1 ≠ k) →
    getKey (ex.foldl (fun m kv => setKey m kv.1 kv.2) l) k = getKey l k := by
  induction ex with
  | nil => intro l k _; rfl
  | cons p ex ih =>
    intro l k h
    rw [List.foldl_cons, ih _ _ (fun q hq => h q (by simp [hq])),
      getKey_setKey_ne _ _ _ _ (Ne.symm (h p (by simp)))]

/-! ## Codec round-trip helpers -/

/-- Lower-cased json tags of the typed OIDC sub-schema (including the two
Dex-side spellings `clientID`/`redirectURI`, which fold to the same names). -/
def oidcKnownTagsLower : List String :=
  ["issuer", "clientid", "clientsecret", "redirecturi", "scopes",
   "insecureskipemailverified", "insecureissuer", "usernamekey", "claimmapping"]

theorem applyOidc_unknown (c : OIDCConfig) (k : String) (v : Json)
    (h : lowerStr k ∉ oidcKnownTagsLower) : applyOidcField c k v = c := by
  simp only [oidcKnownTagsLower, List.mem_cons, List.not_mem_nil, or_false, not_or] at h
  obtain ⟨h1, h2, h3, h4, h5, h6, h7, h8, h9⟩ := h
  simp only [applyOidcField, if_neg h1, if_neg h2, if_neg h3, if_neg h4, if_neg h5,
    if_neg h6, if_neg h7, if_neg h8, if_neg h9]

theorem foldl_applyOidc_unknown (l : JObj) : ∀ (c : OIDCConfig),
    (∀ p ∈ l, lowerStr p.1 ∉ oidcKnownTagsLower) →
    l.foldl (fun c kv => applyOidcField c kv.1 kv.2) c = c := by
  induction l with
  | nil => intro c _; rfl
  | cons p l ih =>
    intro c h
    rw [List.foldl_cons, applyOidc_unknown c p.1 p.2 (h p (by simp)),
      ih c (fun q hq => h q (by simp [hq]))]

theorem applyOidc_issuer (c : OIDCConfig) (v : Json) :
    applyOidcField c "issuer" v = { c with issuer := strField v c.issuer } := rfl

theorem applyOidc_clientID (c : OIDCConfig) (v : Json) :
    applyOidcField c "clientID" v = { c with clientId := strField v c.clientId } := rfl

theorem applyOidc_clientSecret (c : OIDCConfig) (v : Json) :
    applyOidcField c "clientSecret" v =
      { c with clientSecret := strField v c.clientSecret } := rfl

theorem applyOidc_redirectURI (c : OIDCConfig) (v : Json) :
    applyOidcField c "redirectURI" v =
      { c with redirectUri := strField v c.redirectUri } := rfl

theorem applyOidc_scopes (c : OIDCConfig) (v : Json) :
    applyOidcField c "scopes" v = { c with scopes := scopesField v c.scopes } := rfl

theorem applyOidc_isv (c : OIDCConfig) (v : Json) :
    applyOidcField c "insecureSkipEmailVerified" v =
      { c with insecureSkipEmailVerified :=
          optBoolField v c.insecureSkipEmailVerified } := rfl

theorem applyOidc_iiss (c : OIDCConfig) (v : Json) :
    applyOidcField c "insecureIssuer" v =
      { c with insecureIssuer := optBoolField v c.insecureIssuer } := rfl

theorem applyOidc_unk (c : OIDCConfig) (v : Json) :
    applyOidcField c "userNameKey" v =
      { c with userNameKey := optStrField v c.userNameKey } := rfl

theorem applyOidc_claimMapping (c : OIDCConfig) (fs : JObj) :
    applyOidcField c "claimMapping" (Json.jobj fs) =
      { c with claimMapping := some (decodeClaimMapping fs) } := rfl

theorem decodeClaimMapping_marshal (cm : OIDCClaimMapping) :
    decodeClaimMapping
      ((match cm.emailKey with
        | some e => [("email", Json.jstr e)] | none => []) ++
       (match cm.groupsKey with
        | some g => [("groups", Json.jstr g)] | none => [])) = cm := by
  rcases cm with ⟨e, g⟩
  rcases e <;> rcases g <;> rfl

theorem scopesField_map_jstr (l : List String) (old : List String) :
    scopesField (Json.jarr (l.map Json.jstr)) old = l := by
  simp only [scopesField, List.map_map]
  have : ((fun j => match j with | Json.jstr s => s | _ => "") ∘ Json.jstr) =
      fun s : String => s := rfl
  rw [this]
  exact List.map_id' l

/-- The optional segments of `marshalOIDC` (everything after the four
mandatory string fields). -/
def oidcMarshalTail (c : OIDCConfig) : JObj :=
  (if c.scopes.isEmpty then [] else [("scopes", Json.jarr (c.scopes.map Json.jstr))]) ++
  (match c.insecureSkipEmailVerified with
   | some b => [("insecureSkipEmailVerified", Json.jbool b)] | none => []) ++
  (match c.insecureIssuer with
   | some b => [("insecureIssuer", Json.jbool b)] | none => []) ++
  (match c.userNameKey with
   | some s => [("userNameKey", Json.jstr s)] | none => []) ++
  (match c.claimMapping with
   | some cm => [("claimMapping", marshalClaimMapping cm)] | none => [])

theorem marshalOIDC_eq (c : OIDCConfig) :
    marshalOIDC c =
      [("issuer", Json.jstr c.issuer), ("clientId", Json.jstr c.clientId),
       ("clientSecret", Json.jstr c.clientSecret),
       ("redirectUri", Json.jstr c.redirectUri)] ++ oidcMarshalTail c := by
  simp [marshalOIDC, oidcMarshalTail, List.append_assoc]

theorem tail_keys (c : OIDCConfig) :
    ∀ p ∈ oidcMarshalTail c,
      p.1 ∈ ["scopes", "insecureSkipEmailVerified", "insecureIssuer",
             "userNameKey", "claimMapping"] := by
  intro p hp
  simp only [oidcMarshalTail, List.mem_append] at hp
  rcases hp with (((hp | hp) | hp) | hp) | hp <;> split at hp <;> simp_all

theorem getKey_append_of_not_left (l1 l2 : JObj) (k : String)
    (h : ∀ q ∈ l1, q.1 ≠ k) : getKey (l1 ++ l2) k = getKey l2 k := by
  rw [getKey, List.find?_append]
  have h1 : l1.find? (fun p => p.1 == k) = none := by
    rw [List.find?_eq_none]
    intro q hq hqk
    exact h q hq (by simpa using hqk)
  simp [h1, getKey, Option.orElse]

theorem extra_ne (k : String) (h : lowerStr k ∉ oidcKnownTagsLower) :
    k ≠ "issuer" ∧ k ≠ "clientId" ∧ k ≠ "clientID" ∧ k ≠ "clientSecret" ∧
    k ≠ "redirectUri" ∧ k ≠ "redirectURI" ∧ k ≠ "scopes" ∧
    k ≠ "insecureSkipEmailVerified" ∧ k ≠ "insecureIssuer" ∧
    k ≠ "userNameKey" ∧ k ≠ "claimMapping" :=
  ⟨fun he => h (by rw [he]; decide), fun he => h (by rw [he]; decide),
   fun he => h (by rw [he]; decide), fun he => h (by rw [he]; decide),
   fun he => h (by rw [he]; decide), fun he => h (by rw [he]; decide),
   fun he => h (by rw [he]; decide), fun he => h (by rw [he]; decide),
   fun he => h (by rw [he]; decide), fun he => h (by rw [he]; decide),
   fun he => h (by rw [he]; decide)⟩

theorem delKey_append (l1 l2 : JObj) (k : String) :
    delKey (l1 ++ l2) k = delKey l1 k ++ delKey l2 k := by
  simp [delKey, List.filter_append]

/-- The map `buildConnectorConfigBytes` produces before merging `Extra`
(the struct marshal with the two renames applied). -/
def buildBase (c : OIDCConfig) : JObj :=
  let base := marshalOIDC c
  let base := match getKey base "clientId" with
    | some v => delKey (setKey base "clientID" v) "clientId"
    | none => base
  let base := match getKey base "redirectUri" with
    | some v => delKey (setKey base "redirectURI" v) "redirectUri"
    | none => base
  base

theorem buildOidcConfigMap_eq_foldl (c : OIDCConfig) :
    buildOidcConfigMap c =
      c.extra.foldl (fun m kv => setKey m kv.1 kv.2) (buildBase c) := rfl

theorem marshalOIDC_cons (c : OIDCConfig) :
    marshalOIDC c =
      ("issuer", Json.jstr c.issuer) :: ("clientId", Json.jstr c.clientId) ::
      ("clientSecret", Json.jstr c.clientSecret) ::
      ("redirectUri", Json.jstr c.redirectUri) :: oidcMarshalTail c := by
  rw [marshalOIDC_eq]
  rfl

theorem tail_keys_ne (x : OIDCConfig) (k : String)
    (hk : k ∈ ["issuer", "clientId", "clientID", "clientSecret",
               "redirectUri", "redirectURI"]) :
    ∀ q ∈ oidcMarshalTail x, q.1 ≠ k := by
  intro q hq
  have h5 := tail_keys x q hq
  simp only [List.mem_cons, List.not_mem_nil, or_false] at h5 hk
  rcases h5 with h5 | h5 | h5 | h5 | h5 <;> rw [h5] <;>
    rcases hk with rfl | rfl | rfl | rfl | rfl | rfl <;> decide

theorem buildBase_eq (x : OIDCConfig) :
    buildBase x =
      ("issuer", Json.jstr x.issuer) :: ("clientSecret", Json.jstr x.clientSecret) ::
      ((oidcMarshalTail x ++ [("clientID", Json.jstr x.clientId)]) ++
       [("redirectURI", Json.jstr x.redirectUri)]) := by
  have g1 : getKey (marshalOIDC x) "clientId" = some (Json.jstr x.clientId) := by
    rw [marshalOIDC_cons]
    simp [getKey_cons]
  have s1 : setKey (marshalOIDC x) "clientID" (Json.jstr x.clientId) =
      ("issuer", Json.jstr x.issuer) :: ("clientId", Json.jstr x.clientId) ::
      ("clientSecret", Json.jstr x.clientSecret) ::
      ("redirectUri", Json.jstr x.redirectUri) ::
      (oidcMarshalTail x ++ [("clientID", Json.jstr x.clientId)]) := by
    rw [marshalOIDC_cons, setKey_fresh]
    · rfl
    · intro q hq
      simp only [List.mem_cons] at hq
      rcases hq with rfl | rfl | rfl | rfl | hq
      · simp
      · simp
      · simp
      · simp
      · exact tail_keys_ne x "clientID" (by decide) q hq
  have d1 : delKey (("issuer", Json.jstr x.issuer) :: ("clientId", Json.jstr x.clientId) ::
      ("clientSecret", Json.jstr x.clientSecret) ::
      ("redirectUri", Json.jstr x.redirectUri) ::
      (oidcMarshalTail x ++ [("clientID", Json.jstr x.clientId)])) "clientId" =
      ("issuer", Json.jstr x.issuer) :: ("clientSecret", Json.jstr x.clientSecret) ::
      ("redirectUri", Json.jstr x.redirectUri) ::
      (oidcMarshalTail x ++ [("clientID", Json.jstr x.clientId)]) := by
    rw [show (("issuer", Json.jstr x.issuer) :: ("clientId", Json.jstr x.clientId) ::
        ("clientSecret", Json.jstr x.clientSecret) ::
        ("redirectUri", Json.jstr x.redirectUri) ::
        (oidcMarshalTail x ++ [("clientID", Json.jstr x.clientId)])) =
        [("issuer", Json.jstr x.issuer), ("clientId", Json.jstr x.clientId),
         ("clientSecret", Json.jstr x.clientSecret),
         ("redirectUri", Json.jstr x.redirectUri)] ++
        (oidcMarshalTail x ++ [("clientID", Json.jstr x.clientId)]) from rfl]
    rw [delKey_append, delKey_append,
      delKey_of_keys_ne _ _ (tail_keys_ne x "clientId" (by decide))]
    simp [delKey, List.filter_cons]
  have g2 : getKey (("issuer", Json.jstr x.issuer) ::
      ("clientSecret", Json.jstr x.clientSecret) ::
      ("redirectUri", Json.jstr x.redirectUri) ::
      (oidcMarshalTail x ++ [("clientID", Json.jstr x.clientId)])) "redirectUri" =
      some (Json.jstr x.redirectUri) := by
    simp [getKey_cons]
  have s2 : setKey (("issuer", Json.jstr x.issuer) ::
      ("clientSecret", Json.jstr x.clientSecret) ::
      ("redirectUri", Json.jstr x.redirectUri) ::
      (oidcMarshalTail x ++ [("clientID", Json.jstr x.clientId)])) "redirectURI"
      (Json.jstr x.redirectUri) =
      ("issuer", Json.jstr x.issuer) :: ("clientSecret", Json.jstr x.clientSecret) ::
      ("redirectUri", Json.jstr x.redirectUri) ::
      ((oidcMarshalTail x ++ [("clientID", Json.jstr x.clientId)]) ++
       [("redirectURI", Json.jstr x.redirectUri)]) := by
    rw [setKey_fresh]
    · rfl
    · intro q hq
      simp only [List.mem_cons] at hq
      rcases hq with rfl | rfl | rfl | hq
      · simp
      · simp
      · simp
      · rcases List.mem_append.mp hq with hq | hq
        · exact tail_keys_ne x "redirectURI" (by decide) q hq
        · rw [List.mem_singleton.mp hq]
          simp
  have d2 : delKey (("issuer", Json.jstr x.issuer) ::
      ("clientSecret", Json.jstr x.clientSecret) ::
      ("redirectUri", Json.jstr x.redirectUri) ::
      ((oidcMarshalTail x ++ [("clientID", Json.jstr x.clientId)]) ++
       [("redirectURI", Json.jstr x.redirectUri)])) "redirectUri" =
      ("issuer", Json.jstr x.issuer) :: ("clientSecret", Json.jstr x.clientSecret) ::
      ((oidcMarshalTail x ++ [("clientID", Json.jstr x.clientId)]) ++
       [("redirectURI", Json.jstr x.redirectUri)]) := by
    rw [show (("issuer", Json.jstr x.issuer) ::
        ("clientSecret", Json.jstr x.clientSecret) ::
        ("redirectUri", Json.jstr x.redirectUri) ::
        ((oidcMarshalTail x ++ [("clientID", Json.jstr x.clientId)]) ++
         [("redirectURI", Json.jstr x.redirectUri)])) =
        [("issuer", Json.jstr x.issuer), ("clientSecret", Json.jstr x.clientSecret),
         ("redirectUri", Json.jstr x.redirectUri)] ++
        ((oidcMarshalTail x ++ [("clientID", Json.jstr x.clientId)]) ++
         [("redirectURI", Json.jstr x.redirectUri)]) from rfl]
    rw [delKey_append, delKey_append, delKey_append,
      delKey_of_keys_ne _ _ (tail_keys_ne x "redirectUri" (by decide))]
    simp [delKey, List.filter_cons]
  simp only [buildBase, g1, s1, d1, g2, s2, d2]

theorem build_eq (x : OIDCConfig)
    (hdisj : ∀ p ∈ x.extra, lowerStr p.1 ∉ oidcKnownTagsLower)
    (hnodup : x.extra.Pairwise (fun p q => p.1 ≠ q.1)) :
    buildOidcConfigMap x =
      (("issuer", Json.jstr x.issuer) :: ("clientSecret", Json.jstr x.clientSecret) ::
       ((oidcMarshalTail x ++ [("clientID", Json.jstr x.clientId)]) ++
        [("redirectURI", Json.jstr x.redirectUri)])) ++ x.extra := by
  rw [buildOidcConfigMap_eq_foldl, buildBase_eq]
  apply foldl_setKey_fresh _ _ _ hnodup
  intro p hp q hq
  have h11 := extra_ne p.1 (hdisj p hp)
  simp only [List.mem_cons, List.mem_append, List.mem_singleton] at hq
  rcases hq with rfl | rfl | (hq | rfl | h0) | (rfl | h1)
  · exact h11.1
  · exact h11.2.2.2.1
  · have h5 := tail_keys x q hq
    simp only [List.mem_cons, List.not_mem_nil, or_false] at h5
    rcases h5 with h5 | h5 | h5 | h5 | h5 <;> rw [h5]
    · exact h11.2.2.2.2.2.2.1
    · exact h11.2.2.2.2.2.2.2.1
    · exact h11.2.2.2.2.2.2.2.2.1
    · exact h11.2.2.2.2.2.2.2.2.2.1
    · exact h11.2.2.2.2.2.2.2.2.2.2
  · exact h11.2.2.1
  · exact absurd h0 (List.not_mem_nil q)
  · exact h11.2.2.2.2.2.1
  · exact absurd h1 (List.not_mem_nil q)

theorem fold_scopes_seg (acc : OIDCConfig) (sc : List String) (h : acc.scopes = []) :
    List.foldl (fun c kv => applyOidcField c kv.1 kv.2) acc
      (if sc.isEmpty then [] else [("scopes", Json.jarr (sc.map Json.jstr))]) =
      { acc with scopes := sc } := by
  rcases sc with _ | ⟨a, as⟩
  · cases acc
    simp_all
  · simp only [List.isEmpty_cons, Bool.false_eq_true, if_false, List.foldl_cons,
      List.foldl_nil, applyOidc_scopes]
    rw [scopesField_map_jstr]

theorem fold_isv_seg (acc : OIDCConfig) (o : Option Bool)
    (h : acc.insecureSkipEmailVerified = none) :
    List.foldl (fun c kv => applyOidcField c kv.1 kv.2) acc
      (match o with
       | some b => [("insecureSkipEmailVerified", Json.jbool b)] | none => []) =
      { acc with insecureSkipEmailVerified := o } := by
  rcases o with _ | b
  · cases acc
    simp_all
  · simp [List.foldl, applyOidc_isv, optBoolField]

theorem fold_iiss_seg (acc : OIDCConfig) (o : Option Bool)
    (h : acc.insecureIssuer = none) :
    List.foldl (fun c kv => applyOidcField c kv.1 kv.2) acc
      (match o with
       | some b => [("insecureIssuer", Json.jbool b)] | none => []) =
      { acc with insecureIssuer := o } := by
  rcases o with _ | b
  · cases acc
    simp_all
  · simp [List.foldl, applyOidc_iiss, optBoolField]

theorem fold_unk_seg (acc : OIDCConfig) (o : Option String)
    (h : acc.userNameKey = none) :
    List.foldl (fun c kv => applyOidcField c kv.1 kv.2) acc
      (match o with
       | some v => [("userNameKey", Json.jstr v)] | none => []) =
      { acc with userNameKey := o } := by
  rcases o with _ | v
  · cases acc
    simp_all
  · simp [List.foldl, applyOidc_unk, optStrField]

theorem fold_cm_seg (acc : OIDCConfig) (o : Option OIDCClaimMapping)
    (h : acc.claimMapping = none) :
    List.foldl (fun c kv => applyOidcField c kv.1 kv.2) acc
      (match o with
       | some cm => [("claimMapping", marshalClaimMapping cm)] | none => []) =
      { acc with claimMapping := o } := by
  rcases o with _ | cm
  · cases acc
    simp_all
  · simp [List.foldl, marshalClaimMapping, applyOidc_claimMapping,
      decodeClaimMapping_marshal]

theorem decodeTyped_BB (x : OIDCConfig) :
    decodeTypedOIDC
      (("issuer", Json.jstr x.issuer) :: ("clientSecret", Json.jstr x.clientSecret) ::
       ((oidcMarshalTail x ++ [("clientID", Json.jstr x.clientId)]) ++
        [("redirectURI", Json.jstr x.redirectUri)])) = { x with extra := [] } := by
  obtain ⟨i, c, cs, r, sc, b1, b2, u, cm, ex⟩ := x
  simp only [decodeTypedOIDC, oidcMarshalTail, List.foldl_append, List.foldl_cons,
    List.foldl_nil]
  rw [applyOidc_issuer, applyOidc_clientSecret]
  rw [fold_scopes_seg _ _ rfl, fold_isv_seg _ _ rfl, fold_iiss_seg _ _ rfl,
    fold_unk_seg _ _ rfl, fold_cm_seg _ _ rfl]
  rw [applyOidc_clientID, applyOidc_redirectURI]
  simp [strField, defaultOIDCConfig]

theorem delKey_nil (k : String) : delKey [] k = [] := rfl

theorem delKey_cons (p : String × Json) (l : JObj) (k : String) :
    delKey (p :: l) k = if p.1 = k then delKey l k else p :: delKey l k := by
  rw [delKey, List.filter_cons]
  by_cases h : p.1 = k <;> simp [h, delKey]

/-- The extension-bucket computation inside `decodeConnector`'s typed branch
(rename back, then delete the nine known keys). -/
def decodeBase (m : JObj) : JObj :=
  let base := match getKey m "clientID" with
    | some v => delKey (setKey m "clientId" v) "clientID"
    | none => m
  let base := match getKey base "redirectURI" with
    | some v => delKey (setKey base "redirectUri" v) "redirectURI"
    | none => base
  delKey (delKey (delKey (delKey (delKey (delKey (delKey (delKey (delKey base
    "issuer") "clientId") "clientSecret") "redirectUri") "scopes")
    "insecureSkipEmailVerified") "insecureIssuer") "userNameKey") "claimMapping"

theorem decodeConnector_oidc_obj (id name : String) (m : JObj) (raw : String) :
    decodeConnector ⟨id, "oidc", name, Bytes.wellFormed (Json.jobj m) raw⟩ =
      .ok
        (let oidc := decodeTypedOIDC m
         let base := decodeBase m
         let oidc := if base.isEmpty then oidc else { oidc with extra := base }
         let args : ConnectorArgs :=
           { connectorId := id, type := "oidc", name := name,
             oidcConfig := some oidc, rawConfig := none }
         (args, { toConnectorArgs := args })) := rfl

theorem delKey_tail_all (x : OIDCConfig) :
    delKey (delKey (delKey (delKey (delKey (oidcMarshalTail x) "scopes")
      "insecureSkipEmailVerified") "insecureIssuer") "userNameKey")
      "claimMapping" = [] := by
  simp only [delKey, List.filter_filter]
  rw [List.filter_eq_nil_iff]
  intro p hp
  have h5 := tail_keys x p hp
  simp only [List.mem_cons, List.not_mem_nil, or_false] at h5
  rcases h5 with h5 | h5 | h5 | h5 | h5 <;> simp [h5]

theorem decodeBase_BB_ex (x : OIDCConfig) (ex : JObj)
    (hdisj : ∀ p ∈ ex, lowerStr p.1 ∉ oidcKnownTagsLower) :
    decodeBase
      ((("issuer", Json.jstr x.issuer) :: ("clientSecret", Json.jstr x.clientSecret) ::
        ((oidcMarshalTail x ++ [("clientID", Json.jstr x.clientId)]) ++
         [("redirectURI", Json.jstr x.redirectUri)])) ++ ex) = ex := by
  have hex : ∀ (k : String),
      k ∈ ["issuer", "clientId", "clientID", "clientSecret", "redirectUri",
           "redirectURI", "scopes", "insecureSkipEmailVerified", "insecureIssuer",
           "userNameKey", "claimMapping"] →
      ∀ q ∈ ex, q.1 ≠ k := by
    intro k hk q hq
    have h11 := extra_ne q.1 (hdisj q hq)
    simp only [List.mem_cons, List.not_mem_nil, or_false] at hk
    rcases hk with rfl | rfl | rfl | rfl | rfl | rfl | rfl | rfl | rfl | rfl | rfl
    · exact h11.1
    · exact h11.2.1
    · exact h11.2.2.1
    · exact h11.2.2.2.1
    · exact h11.2.2.2.2.1
    · exact h11.2.2.2.2.2.1
    · exact h11.2.2.2.2.2.2.1
    · exact h11.2.2.2.2.2.2.2.1
    · exact h11.2.2.2.2.2.2.2.2.1
    · exact h11.2.2.2.2.2.2.2.2.2.1
    · exact h11.2.2.2.2.2.2.2.2.2.2
  have hEx : ∀ (k : String),
      k ∈ ["issuer", "clientId", "clientID", "clientSecret", "redirectUri",
           "redirectURI", "scopes", "insecureSkipEmailVerified", "insecureIssuer",
           "userNameKey", "claimMapping"] →
      delKey ex k = ex := fun k hk => delKey_of_keys_ne _ _ (hex k hk)
  have hshape : ((("issuer", Json.jstr x.issuer) ::
      ("clientSecret", Json.jstr x.clientSecret) ::
      ((oidcMarshalTail x ++ [("clientID", Json.jstr x.clientId)]) ++
       [("redirectURI", Json.jstr x.redirectUri)])) ++ ex) =
      ("issuer", Json.jstr x.issuer) :: ("clientSecret", Json.jstr x.clientSecret) ::
      (oidcMarshalTail x ++ (("clientID", Json.jstr x.clientId) ::
        ("redirectURI", Json.jstr x.redirectUri) :: ex)) := by
    simp [List.append_assoc]
  rw [hshape]
  have g1 : getKey (("issuer", Json.jstr x.issuer) ::
      ("clientSecret", Json.jstr x.clientSecret) ::
      (oidcMarshalTail x ++ (("clientID", Json.jstr x.clientId) ::
        ("redirectURI", Json.jstr x.redirectUri) :: ex))) "clientID" =
      some (Json.jstr x.clientId) := by
    rw [getKey_cons, if_neg (by simp), getKey_cons, if_neg (by simp),
      getKey_append_of_not_left _ _ _ (tail_keys_ne x "clientID" (by decide)),
      getKey_cons, if_pos rfl]
  have s1 : setKey (("issuer", Json.jstr x.issuer) ::
      ("clientSecret", Json.jstr x.clientSecret) ::
      (oidcMarshalTail x ++ (("clientID", Json.jstr x.clientId) ::
        ("redirectURI", Json.jstr x.redirectUri) :: ex))) "clientId"
      (Json.jstr x.clientId) =
      ("issuer", Json.jstr x.issuer) :: ("clientSecret", Json.jstr x.clientSecret) ::
      (oidcMarshalTail x ++ (("clientID", Json.jstr x.clientId) ::
        ("redirectURI", Json.jstr x.redirectUri) ::
        (ex ++ [("clientId", Json.jstr x.clientId)]))) := by
    rw [setKey_fresh]
    · simp [List.append_assoc]
    · intro q hq
      simp only [List.mem_cons, List.mem_append] at hq
      rcases hq with rfl | rfl | hq | rfl | rfl | hq
      · simp
      · simp
      · exact tail_keys_ne x "clientId" (by decide) q hq
      · simp
      · simp
      · exact hex "clientId" (by decide) q hq
  have d1 : delKey (("issuer", Json.jstr x.issuer) ::
      ("clientSecret", Json.jstr x.clientSecret) ::
      (oidcMarshalTail x ++ (("clientID", Json.jstr x.clientId) ::
        ("redirectURI", Json.jstr x.redirectUri) ::
        (ex ++ [("clientId", Json.jstr x.clientId)])))) "clientID" =
      ("issuer", Json.jstr x.issuer) :: ("clientSecret", Json.jstr x.clientSecret) ::
      (oidcMarshalTail x ++ (("redirectURI", Json.jstr x.redirectUri) ::
        (ex ++ [("clientId", Json.jstr x.clientId)]))) := by
    simp only [delKey_cons, delKey_append, delKey_nil,
      delKey_of_keys_ne _ _ (tail_keys_ne x "clientID" (by decide)),
      hEx "clientID" (by decide)]
    simp
  have g2 : getKey (("issuer", Json.jstr x.issuer) ::
      ("clientSecret", Json.jstr x.clientSecret) ::
      (oidcMarshalTail x ++ (("redirectURI", Json.jstr x.redirectUri) ::
        (ex ++ [("clientId", Json.jstr x.clientId)])))) "redirectURI" =
      some (Json.jstr x.redirectUri) := by
    rw [getKey_cons, if_neg (by simp), getKey_cons, if_neg (by simp),
      getKey_append_of_not_left _ _ _ (tail_keys_ne x "redirectURI" (by decide)),
      getKey_cons, if_pos rfl]
  have s2 : setKey (("issuer", Json.jstr x.issuer) ::
      ("clientSecret", Json.jstr x.clientSecret) ::
      (oidcMarshalTail x ++ (("redirectURI", Json.jstr x.redirectUri) ::
        (ex ++ [("clientId", Json.jstr x.clientId)])))) "redirectUri"
      (Json.jstr x.redirectUri) =
      ("issuer", Json.jstr x.issuer) :: ("clientSecret", Json.jstr x.clientSecret) ::
      (oidcMarshalTail x ++ (("redirectURI", Json.jstr x.redirectUri) ::
        (ex ++ [("clientId", Json.jstr x.clientId),
                ("redirectUri", Json.jstr x.redirectUri)]))) := by
    rw [setKey_fresh]
    · simp [List.append_assoc]
    · intro q hq
      simp only [List.mem_cons, List.mem_append] at hq
      rcases hq with rfl | rfl | hq | rfl | hq | (rfl | h0)
      · simp
      · simp
      · exact tail_keys_ne x "redirectUri" (by decide) q hq
      · simp
      · exact hex "redirectUri" (by decide) q hq
      · simp
      · exact absurd h0 (List.not_mem_nil q)
  have d2 : delKey (("issuer", Json.jstr x.issuer) ::
      ("clientSecret", Json.jstr x.clientSecret) ::
      (oidcMarshalTail x ++ (("redirectURI", Json.jstr x.redirectUri) ::
        (ex ++ [("clientId", Json.jstr x.clientId),
                ("redirectUri", Json.jstr x.redirectUri)])))) "redirectURI" =
      ("issuer", Json.jstr x.issuer) :: ("clientSecret", Json.jstr x.clientSecret) ::
      (oidcMarshalTail x ++
        (ex ++ [("clientId", Json.jstr x.clientId),
                ("redirectUri", Json.jstr x.redirectUri)])) := by
    simp only [delKey_cons, delKey_append, delKey_nil,
      delKey_of_keys_ne _ _ (tail_keys_ne x "redirectURI" (by decide)),
      hEx "redirectURI" (by decide)]
    simp
  simp only [decodeBase, g1, s1, d1, g2, s2, d2]
  simp [delKey_cons, delKey_append, delKey_nil,
    delKey_of_keys_ne _ _ (tail_keys_ne x "issuer" (by decide)),
    delKey_of_keys_ne _ _ (tail_keys_ne x "clientId" (by decide)),
    delKey_of_keys_ne _ _ (tail_keys_ne x "clientSecret" (by decide)),
    delKey_of_keys_ne _ _ (tail_keys_ne x "redirectUri" (by decide)),
    delKey_tail_all,
    hEx "issuer" (by decide), hEx "clientId" (by decide),
    hEx "clientSecret" (by decide), hEx "redirectUri" (by decide),
    hEx "scopes" (by decide), hEx "insecureSkipEmailVerified" (by decide),
    hEx "insecureIssuer" (by decide), hEx "userNameKey" (by decide),
    hEx "claimMapping" (by decide)]

/-- One key rename (`base[dst] = base[src]; delete(base, src)`) as done on
both sides of the codec. -/
def renameKey (m : JObj) (src dst : String) : JObj :=
  match getKey m src with
  | some v => delKey (setKey m dst v) src
  | none => m

theorem decodeBase_renames (m : JObj) :
    decodeBase m =
      delKey (delKey (delKey (delKey (delKey (delKey (delKey (delKey (delKey
        (renameKey (renameKey m "clientID" "clientId") "redirectURI" "redirectUri")
        "issuer") "clientId") "clientSecret") "redirectUri") "scopes")
        "insecureSkipEmailVerified") "insecureIssuer") "userNameKey")
        "claimMapping" := rfl

theorem getKey_renameKey_ne (m : JObj) (src dst k : String)
    (h1 : k ≠ src) (h2 : k ≠ dst) :
    getKey (renameKey m src dst) k = getKey m k := by
  rw [renameKey]
  rcases getKey m src with _ | v
  · rfl
  · rw [getKey_delKey_ne _ _ _ h1, getKey_setKey_ne _ _ _ _ h2]

theorem pairwise_setKey (l : JObj) (k : String) (v : Json)
    (h : l.Pairwise (fun p q => p.1 ≠ q.1)) :
    (setKey l k v).Pairwise (fun p q => p.1 ≠ q.1) := by
  by_cases ha : (l.any fun q => q.1 == k) = true
  · rw [setKey, if_pos ha, List.pairwise_map]
    refine h.imp_of_mem ?_
    intro p q _ _ hpq
    by_cases hp : (p.1 == k) = true <;> by_cases hq2 : (q.1 == k) = true <;>
      simp only [hp, hq2, if_true, if_false, Bool.false_eq_true]
    · exact absurd ((eq_of_beq hp).trans (eq_of_beq hq2).symm) hpq
    · simpa [eq_of_beq hp] using fun he => hq2 (by simp [← he, eq_of_beq hp])
    · simpa [eq_of_beq hq2] using fun he => hp (by simp [he, eq_of_beq hq2])
    · exact hpq
  · rw [setKey, if_neg ha]
    rw [List.pairwise_append]
    refine ⟨h, List.pairwise_singleton _ _, ?_⟩
    intro p hp q hq
    rw [List.mem_singleton.mp hq]
    intro he
    rw [Bool.not_eq_true, List.any_eq_false] at ha
    exact (by simpa using ha p hp : p.1 ≠ k) (by simpa using he)

theorem pairwise_delKey (l : JObj) (k : String)
    (h : l.Pairwise (fun p q => p.1 ≠ q.1)) :
    (delKey l k).Pairwise (fun p q => p.1 ≠ q.1) :=
  h.sublist (List.filter_sublist l)

theorem pairwise_renameKey (m : JObj) (src dst : String)
    (h : m.Pairwise (fun p q => p.1 ≠ q.1)) :
    (renameKey m src dst).Pairwise (fun p q => p.1 ≠ q.1) := by
  rw [renameKey]
  rcases getKey m src with _ | v
  · exact h
  · exact pairwise_delKey _ _ (pairwise_setKey _ _ _ h)

theorem pairwise_decodeBase (m : JObj)
    (h : m.Pairwise (fun p q => p.1 ≠ q.1)) :
    (decodeBase m).Pairwise (fun p q => p.1 ≠ q.1) := by
  rw [decodeBase_renames]
  exact pairwise_delKey _ _ (pairwise_delKey _ _ (pairwise_delKey _ _
    (pairwise_delKey _ _ (pairwise_delKey _ _ (pairwise_delKey _ _
    (pairwise_delKey _ _ (pairwise_delKey _ _ (pairwise_delKey _ _
    (pairwise_renameKey _ _ _ (pairwise_renameKey _ _ _ h))))))))))

theorem getKey_decodeBase_unknown (m : JObj) (k : String)
    (h : lowerStr k ∉ oidcKnownTagsLower) :
    getKey (decodeBase m) k = getKey m k := by
  have h11 := extra_ne k h
  rw [decodeBase_renames,
    getKey_delKey_ne _ _ _ h11.2.2.2.2.2.2.2.2.2.2,
    getKey_delKey_ne _ _ _ h11.2.2.2.2.2.2.2.2.2.1,
    getKey_delKey_ne _ _ _ h11.2.2.2.2.2.2.2.2.1,
    getKey_delKey_ne _ _ _ h11.2.2.2.2.2.2.2.1,
    getKey_delKey_ne _ _ _ h11.2.2.2.2.2.2.1,
    getKey_delKey_ne _ _ _ h11.2.2.2.2.1,
    getKey_delKey_ne _ _ _ h11.2.2.2.1,
    getKey_delKey_ne _ _ _ h11.2.1,
    getKey_delKey_ne _ _ _ h11.1,
    getKey_renameKey_ne _ _ _ _ h11.2.2.2.2.2.1 h11.2.2.2.2.1,
    getKey_renameKey_ne _ _ _ _ h11.2.2.1 h11.2.1]

theorem getKey_foldl_setKey_mem (ex : JObj) : ∀ (l : JObj) (k : String) (v : Json),
    ex.Pairwise (fun p q => p.1 ≠ q.1) → getKey ex k = some v →
    getKey (ex.foldl (fun m kv => setKey m kv.1 kv.2) l) k = some v := by
  induction ex with
  | nil => intro l k v _ h; simp [getKey] at h
  | cons p ex ih =>
    intro l k v hpw hg
    rw [List.foldl_cons]
    rw [getKey_cons] at hg
    by_cases hp : p.1 = k
    · subst hp
      rw [if_pos rfl] at hg
      rw [getKey_foldl_setKey_of_ne ex _ _
        (fun q hq => ((List.pairwise_cons.mp hpw).1 q hq).symm),
        getKey_setKey_self]
      exact hg
    · rw [if_neg hp] at hg
      exact ih _ _ _ (List.pairwise_cons.mp hpw).2 hg

theorem isEmpty_false_of_getKey (l : JObj) (k : String) (v : Json)
    (h : getKey l k = some v) : l.isEmpty = false := by
  cases l
  · simp [getKey] at h
  · rfl

/-- C7 (corrected): for every typed OIDC configuration whose extra-map keys
are pairwise distinct and (case-insensitively) distinct from the typed
sub-schema's field names, decoding the encoded configuration reproduces the
configuration exactly — typed fields, renames, and extra map included; and
any unknown JSON key in arbitrary object bytes survives decode into the
extra map and is re-merged verbatim by the next encode.  An extra-map key
that collides with a known field name overwrites that field during encode
and breaks the round trip (see the counterexample), which is what forces the
disjointness proviso. -/
theorem c7_codec_roundtrip :
    (∀ (x : OIDCConfig) (id name raw : String),
      x.extra.Pairwise (fun p q => p.1 ≠ q.1) →
      (∀ p ∈ x.extra, lowerStr p.1 ∉ oidcKnownTagsLower) →
      decodeConnector ⟨id, "oidc", name,
          Bytes.wellFormed (Json.jobj (buildOidcConfigMap x)) raw⟩ =
        .ok ({ connectorId := id, type := "oidc", name := name,
               oidcConfig := some x, rawConfig := none },
             { toConnectorArgs :=
               { connectorId := id, type := "oidc", name := name,
                 oidcConfig := some x, rawConfig := none } })) ∧
    (∀ (m : JObj) (k : String) (v : Json) (id name raw : String),
      m.Pairwise (fun p q => p.1 ≠ q.1) →
      lowerStr k ∉ oidcKnownTagsLower →
      getKey m k = some v →
      ∃ c : OIDCConfig,
        decodeConnector ⟨id, "oidc", name, Bytes.wellFormed (Json.jobj m) raw⟩ =
          .ok ({ connectorId := id, type := "oidc", name := name,
                 oidcConfig := some c, rawConfig := none },
               { toConnectorArgs :=
                 { connectorId := id, type := "oidc", name := name,
                   oidcConfig := some c, rawConfig := none } }) ∧
        getKey c.extra k = some v ∧
        getKey (buildOidcConfigMap c) k = some v) := by
  constructor
  · intro x id name raw hnodup hdisj
    have ht : decodeTypedOIDC
        ((("issuer", Json.jstr x.issuer) ::
          ("clientSecret", Json.jstr x.clientSecret) ::
          ((oidcMarshalTail x ++ [("clientID", Json.jstr x.clientId)]) ++
           [("redirectURI", Json.jstr x.redirectUri)])) ++ x.extra) =
        { x with extra := [] } := by
      calc decodeTypedOIDC ((("issuer", Json.jstr x.issuer) ::
            ("clientSecret", Json.jstr x.clientSecret) ::
            ((oidcMarshalTail x ++ [("clientID", Json.jstr x.clientId)]) ++
             [("redirectURI", Json.jstr x.redirectUri)])) ++ x.extra) =
          List.foldl (fun c kv => applyOidcField c kv.1 kv.2)
            (List.foldl (fun c kv => applyOidcField c kv.1 kv.2) defaultOIDCConfig
              (("issuer", Json.jstr x.issuer) ::
               ("clientSecret", Json.jstr x.clientSecret) ::
               ((oidcMarshalTail x ++ [("clientID", Json.jstr x.clientId)]) ++
                [("redirectURI", Json.jstr x.redirectUri)]))) x.extra :=
            List.foldl_append _ _ _ _
        _ = List.foldl (fun c kv => applyOidcField c kv.1 kv.2) defaultOIDCConfig
              (("issuer", Json.jstr x.issuer) ::
               ("clientSecret", Json.jstr x.clientSecret) ::
               ((oidcMarshalTail x ++ [("clientID", Json.jstr x.clientId)]) ++
                [("redirectURI", Json.jstr x.redirectUri)])) :=
            foldl_applyOidc_unknown _ _ hdisj
        _ = { x with extra := [] } := decodeTyped_BB x
    have hbase : decodeBase
        ((("issuer", Json.jstr x.issuer) ::
          ("clientSecret", Json.jstr x.clientSecret) ::
          ((oidcMarshalTail x ++ [("clientID", Json.jstr x.clientId)]) ++
           [("redirectURI", Json.jstr x.redirectUri)])) ++ x.extra) = x.extra :=
      decodeBase_BB_ex x x.extra hdisj
    rw [build_eq x hdisj hnodup, decodeConnector_oidc_obj]
    simp only [ht, hbase]
    by_cases he : x.extra.isEmpty = true
    · rw [if_pos he]
      rw [show ({ x with extra := [] } : OIDCConfig) = x from by
        rw [← List.isEmpty_iff.mp he]]
    · rw [if_neg he]
  · intro m k v id name raw hm hk hget
    have hgb : getKey (decodeBase m) k = some v := by
      rw [getKey_decodeBase_unknown m k hk]
      exact hget
    have hne : (decodeBase m).isEmpty = false := isEmpty_false_of_getKey _ _ _ hgb
    refine ⟨{ decodeTypedOIDC m with extra := decodeBase m }, ?_, hgb, ?_⟩
    · rw [decodeConnector_oidc_obj]
      simp only [hne, Bool.false_eq_true, if_false]
    · rw [buildOidcConfigMap_eq_foldl]
      exact getKey_foldl_setKey_mem _ _ _ _ (pairwise_decodeBase m hm) hgb

/-- Counterexample for C7: an extra-map entry named `issuer` overwrites the
typed issuer during encode, so decode(encode x) differs from x on a typed
sub-schema field. -/
theorem c7_counterexample :
    (match decodeConnector ⟨"c1", "oidc", "n",
        Bytes.wellFormed (Json.jobj (buildOidcConfigMap
          { issuer := "https://real.example", clientId := "cid",
            clientSecret := "sec", redirectUri := "https://cb", scopes := [],
            insecureSkipEmailVerified := none, insecureIssuer := none,
            userNameKey := none, claimMapping := none,
            extra := [("issuer", Json.jstr "https://evil.example")] })) ""⟩ with
     | .ok (a, _) =>
        match a.oidcConfig with
        | some c => c.issuer
        | none => ""
     | .error _ => "") = "https://evil.example" ∧
    ("https://evil.example" : String) ≠ "https://real.example" :=
  ⟨rfl, by decide⟩

/-- Witness for C7 at a concrete configuration with an unknown extra key. -/
theorem c7_codec_roundtrip_witness :
    decodeConnector ⟨"c1", "oidc", "n",
        Bytes.wellFormed (Json.jobj (buildOidcConfigMap
          { issuer := "https://accounts.example", clientId := "cid",
            clientSecret := "sec", redirectUri := "https://cb",
            scopes := ["openid"], insecureSkipEmailVerified := some true,
            insecureIssuer := none, userNameKey := some "email",
            claimMapping := some ⟨some "mail", none⟩,
            extra := [("hostedDomains", Json.jstr "example.com")] })) ""⟩ =
      .ok ({ connectorId := "c1", type := "oidc", name := "n",
             oidcConfig := some
               { issuer := "https://accounts.example", clientId := "cid",
                 clientSecret := "sec", redirectUri := "https://cb",
                 scopes := ["openid"], insecureSkipEmailVerified := some true,
                 insecureIssuer := none, userNameKey := some "email",
                 claimMapping := some ⟨some "mail", none⟩,
                 extra := [("hostedDomains", Json.jstr "example.com")] },
             rawConfig := none },
           { toConnectorArgs :=
             { connectorId := "c1", type := "oidc", name := "n",
               oidcConfig := some
                 { issuer := "https://accounts.example", clientId := "cid",
                   clientSecret := "sec", redirectUri := "https://cb",
                   scopes := ["openid"], insecureSkipEmailVerified := some true,
                   insecureIssuer := none, userNameKey := some "email",
                   claimMapping := some ⟨some "mail", none⟩,
                   extra := [("hostedDomains", Json.jstr "example.com")] },
               rawConfig := none } }) :=
  c7_codec_roundtrip.1 _ "c1" "n" "" (by simp) (by decide)

end Dex
